import Mathlib

/-!
# face-manager-linebot: token cipher, postback payload, carousel and event handlers

A shallow embedding of `crypto.go`, `main.go` and `app/callback_handler.go`.

* Go byte strings handled by the token cipher are lists of byte values (`List Nat`, each
  value below 256).
* Go text strings handled by the event handlers are lists of runes (`List Char`): the
  strings are the valid UTF-8 text delivered by the JSON decoders of the two clients, so
  `[]rune(s)` is the list itself and `string(runes)` is the identity.
* The collaborators (messaging client, recognition client, random source, environment)
  are explicit parameters, and every call made to them is recorded in a trace.
-/

set_option autoImplicit false

/-! ## Part 1. `crypto.go` -/

/-- Result of a Go call that returns `(value, error)` and may also panic. -/
inductive Outcome (α : Type) where
  | ok (value : α)
  | error (err : String)
  | panic (msg : String)
  deriving DecidableEq

namespace Base64

/-- The standard alphabet of `encoding/base64` (`encodeStd`), as byte values. -/
def encodeStd : List Nat :=
  "ABCDEFGHIJKLMNOPQRSTUVWXYZabcdefghijklmnopqrstuvwxyz0123456789+/".toList.map Char.toNat

/-- Lookup `enc.encode[v]`. -/
def encodeByte (v : Nat) : Nat := encodeStd.getD v 0

/-- Lookup `enc.decodeMap[c]`: the index of `c` in the alphabet, `0xff` for every other
byte. -/
def decodeMap (c : Nat) : Nat :=
  if encodeStd.indexOf c < 64 then encodeStd.indexOf c else 0xff

/-- Model of `Encoding.Encode` of `RawStdEncoding` (no padding character): three source bytes
become four characters; a remainder of one byte becomes two characters and a remainder of
two bytes becomes three. -/
def encode : List Nat → List Nat
  | b0 :: b1 :: b2 :: rest =>
    let val := b0 <<< 16 ||| b1 <<< 8 ||| b2
    encodeByte (val >>> 18 &&& 0x3F) :: encodeByte (val >>> 12 &&& 0x3F) ::
      encodeByte (val >>> 6 &&& 0x3F) :: encodeByte (val &&& 0x3F) :: encode rest
  | [b0, b1] =>
    let val := b0 <<< 16 ||| b1 <<< 8
    [encodeByte (val >>> 18 &&& 0x3F), encodeByte (val >>> 12 &&& 0x3F),
      encodeByte (val >>> 6 &&& 0x3F)]
  | [b0] =>
    let val := b0 <<< 16
    [encodeByte (val >>> 18 &&& 0x3F), encodeByte (val >>> 12 &&& 0x3F)]
  | [] => []

/-- Model of `RawStdEncoding.EncodeToString`. -/
def EncodeToString (src : List Nat) : List Nat := encode src

/-- The conversion at the end of `decodeQuantum`: the sextets collected in `dbuf` (missing
ones are zero) are assembled into `val`, and `dlen - 1` bytes of it are written. -/
def quantumBytes (dbuf : List Nat) : List Nat :=
  let val := dbuf.getD 0 0 <<< 18 ||| dbuf.getD 1 0 <<< 12 ||| dbuf.getD 2 0 <<< 6 |||
    dbuf.getD 3 0
  ([val >>> 16 % 256, val >>> 8 % 256, val >>> 0 % 256]).take (dbuf.length - 1)

/-- Model of `Encoding.Decode` of `RawStdEncoding`, one input byte at a time as in `decodeQuantum`:
`dbuf` holds the sextets of the current quantum. A byte of the alphabet is stored; `\n`
and `\r` are skipped; any other byte is a `CorruptInputError`. At the end of the input an
empty quantum is fine, a single sextet is corrupt, and two or three sextets give one or
two bytes (the encoding is not strict, so trailing bits are not checked). -/
def decodeFrom : List Nat → List Nat → Except String (List Nat)
  | [], dbuf =>
    match dbuf.length with
    | 0 => .ok []
    | 1 => .error "illegal base64 data"
    | _ => .ok (quantumBytes dbuf)
  | c :: cs, dbuf =>
    if decodeMap c ≠ 0xff then
      if dbuf.length = 3 then
        match decodeFrom cs [] with
        | .ok out => .ok (quantumBytes (dbuf ++ [decodeMap c]) ++ out)
        | .error e => .error e
      else decodeFrom cs (dbuf ++ [decodeMap c])
    else if c = 10 ∨ c = 13 then decodeFrom cs dbuf
    else .error "illegal base64 data"

/-- Model of `Encoding.DecodedLen` without padding: `n * 6 / 8`. -/
def DecodedLen (n : Nat) : Nat := n * 6 / 8

/-- A Go byte slice starting at offset 0 of its backing array: `array` is the whole
backing array, so the capacity is `array.length`, and `len` the slice length. -/
structure ByteSlice where
  array : List Nat
  len : Nat
  deriving DecidableEq

/-- The bytes of a slice. -/
def ByteSlice.bytes (s : ByteSlice) : List Nat := s.array.take s.len

/-- Model of `RawStdEncoding.DecodeString`: `dbuf := make([]byte, DecodedLen(len(s)))`, decode
into it and return `dbuf[:n], err`. -/
def DecodeString (s : List Nat) : Except String ByteSlice :=
  match decodeFrom s [] with
  | .ok out =>
    .ok { array := out ++ List.replicate (DecodedLen s.length - out.length) 0,
          len := out.length }
  | .error e => .error e

end Base64

namespace CFB

/-- The block size of AES (`aes.BlockSize`). -/
def BlockSize : Nat := 16

/-- The state of `crypto/cipher`'s `cfb` stream: the next block to encrypt, the current
key-stream block, the number of its bytes already used, and the direction. -/
structure cfb where
  next : List Nat
  out : List Nat
  outUsed : Nat
  decrypt : Bool
  deriving DecidableEq

/-- Model of `newCFB`: panics unless the IV has the block size; starts with an exhausted
key-stream block. -/
def newCFB (iv : List Nat) (decrypt : Bool) : Outcome cfb :=
  if iv.length ≠ BlockSize then .panic "cipher.newCFB: IV length must equal block size"
  else .ok { next := iv, out := List.replicate BlockSize 0, outUsed := BlockSize,
             decrypt := decrypt }

/-- The refill at the head of the loop of `cfb.XORKeyStream`: when the key-stream block
is used up, `x.b.Encrypt(x.out, x.next)` and `x.outUsed = 0`. `blockEncrypt` is the
`Encrypt` method of `a.cipherBlock`. -/
def refill (blockEncrypt : List Nat → List Nat) (x : cfb) : cfb :=
  if x.outUsed = x.out.length then { x with out := blockEncrypt x.next, outUsed := 0 }
  else x

/-- The feedback of `cfb.XORKeyStream`: the ciphertext byte `c` is copied into `next` at
`outUsed`, and `outUsed` advances. -/
def feed (x : cfb) (c : Nat) : cfb :=
  { x with next := x.next.set x.outUsed c, outUsed := x.outUsed + 1 }

/-- Model of `cfb.XORKeyStream`, one byte at a time: the output byte is the source byte xor the
key-stream byte; the ciphertext byte (the source when decrypting, the output when
encrypting) is fed back into `next`. -/
def XORKeyStream (blockEncrypt : List Nat → List Nat) (x : cfb) : List Nat → List Nat
  | [] => []
  | s :: src =>
    let x1 := refill blockEncrypt x
    let d := s ^^^ x1.out.getD x1.outUsed 0
    d :: XORKeyStream blockEncrypt (feed x1 (if x1.decrypt then s else d)) src

end CFB

/-- Model of `(*app).encrypt`. `randRead` is what `io.ReadFull(rand.Reader, iv)` does to the
16-byte `iv`: `.ok iv` are the bytes read, `.error` a failed read. The result is the
unpadded base64 text of `iv || XORKeyStream(plain)`. -/
def encrypt (cipherBlock : List Nat → List Nat) (randRead : Except String (List Nat))
    (src : List Nat) : Outcome (List Nat) :=
  match randRead with
  | .error e => .error e
  | .ok iv =>
    match CFB.newCFB iv false with
    | .ok stream => .ok (Base64.EncodeToString (iv ++ CFB.XORKeyStream cipherBlock stream src))
    | .error e => .error e
    | .panic m => .panic m

/-- Model of `(*app).decrypt`. The two slice expressions are checked as Go checks them:
`ciphertext[:aes.BlockSize]` against the capacity, `ciphertext[aes.BlockSize:]` against
the length. -/
def decrypt (cipherBlock : List Nat → List Nat) (src : List Nat) : Outcome (List Nat) :=
  match Base64.DecodeString src with
  | .error e => .error e
  | .ok ciphertext =>
    if CFB.BlockSize > ciphertext.array.length then
      .panic "slice bounds out of range [:16] with capacity"
    else
      let iv := ciphertext.array.take CFB.BlockSize
      if CFB.BlockSize > ciphertext.len then
        .panic "slice bounds out of range [16:]"
      else
        let rest := ciphertext.bytes.drop CFB.BlockSize
        match CFB.newCFB iv true with
        | .ok stream => .ok (CFB.XORKeyStream cipherBlock stream rest)
        | .error e => .error e
        | .panic m => .panic m

/-- All values of a list are bytes. -/
def IsBytes (l : List Nat) : Prop := ∀ b ∈ l, b < 256

/-! ## Part 2. The event handlers: shared vocabulary -/

/-- A Go text string, as its list of runes. -/
abbrev GoString := List Char

/-- How a run of a handler ends: it returns a value, the process exits (`os.Exit`, reached
through `log.Fatal`), or the goroutine panics. Each carries the trace of the calls made. -/
inductive Step (ε α : Type) where
  | ret (value : α) (trace : List ε)
  | exit (code : Nat) (trace : List ε)
  | panic (msg : String) (trace : List ε)

/-- A computation that extends the trace of calls made so far. -/
def Run (ε α : Type) : Type := List ε → Step ε α

namespace Run

variable {ε α β : Type}

/-- Return a value, leaving the trace alone. -/
def ret (a : α) : Run ε α := fun tr => .ret a tr

/-- Sequencing: an exit or a panic of the first computation ends the run. -/
def andThen (m : Run ε α) (f : α → Run ε β) : Run ε β := fun tr =>
  match m tr with
  | .ret a tr1 => f a tr1
  | .exit c tr1 => .exit c tr1
  | .panic msg tr1 => .panic msg tr1

/-- A call to a collaborator: the call is appended to the trace, and the answer is what
the collaborator `answer` gives after the calls made so far. -/
def call (e : ε) (answer : List ε → α) : Run ε α := fun tr => .ret (answer tr) (tr ++ [e])

/-- The process exits with `code`. -/
def exit (code : Nat) : Run ε α := fun tr => .exit code tr

/-- A run-time panic. -/
def panic (msg : String) : Run ε α := fun tr => .panic msg tr

end Run

instance (ε : Type) : Monad (Run ε) where
  pure := Run.ret
  bind := Run.andThen

/-- Event source kinds of the messaging platform (`linebot.EventSourceType`). -/
inductive EventSourceType where
  | User | Group | Room
  deriving DecidableEq

/-- Event kinds of the messaging platform (`linebot.EventType`). -/
inductive EventType where
  | Message | Follow | Unfollow | Join | Leave | Postback | Beacon
  deriving DecidableEq

/-- The message of an event (`linebot.Message`): a text message, an image message with its
id, or anything else (also no message at all). -/
inductive Message where
  | Text (text : GoString)
  | Image (id : GoString)
  | Other
  deriving DecidableEq

/-- Source of an event (`linebot.EventSource`); `Kind` is its field `Type`. -/
structure EventSource where
  Kind : EventSourceType
  UserID : GoString
  deriving DecidableEq

/-- An event (`linebot.Event`); `Kind` is its field `Type`, and `PostbackData` is
`event.Postback.Data`. -/
structure Event where
  Kind : EventType
  Source : EventSource
  ReplyToken : GoString
  Message : Message
  PostbackData : GoString
  deriving DecidableEq

/-- Template actions (`linebot.TemplateAction`). -/
inductive TemplateAction where
  | URI (label uri : GoString)
  | Postback (label data text : GoString)
  | Message (label text : GoString)
  deriving DecidableEq

/-- A carousel column (`linebot.CarouselColumn`). -/
structure CarouselColumn where
  ThumbnailImageURL : GoString
  Title : GoString
  Text : GoString
  Actions : List TemplateAction
  deriving DecidableEq

/-- The messages the handlers send. -/
inductive SendingMessage where
  | Text (text : GoString)
  | Confirm (altText text : GoString) (left right : TemplateAction)
  | Carousel (altText : GoString) (columns : List CarouselColumn)
  deriving DecidableEq

/-- Model of `strconv.FormatUint(u, 10)`: the decimal digits of `u`. -/
def FormatUint (u : Nat) : GoString := Nat.toDigits 10 u

/-- The conversion `uint64(x)`. -/
def uint64 (x : Nat) : Nat := x % 2 ^ 64

/-- Model of `strings.Join(elems, sep)`. -/
def Join : List GoString → GoString → GoString
  | [], _ => []
  | [a], _ => a
  | a :: b :: rest, sep => a ++ sep ++ Join (b :: rest) sep

/-- Model of `strings.Split(s, ",")`, scanning `s` from the left with the field read so
far in `field`: every `,` closes a field, and the end of `s` closes the last one, so the
result is never empty and has one more field than `s` has commas. -/
def splitComma : GoString → GoString → List GoString
  | [], field => [field]
  | c :: cs, field => if c = ',' then field :: splitComma cs [] else splitComma cs (field ++ [c])

/-- Model of `strings.Split(s, ",")`. -/
def Split (s : GoString) : List GoString := splitComma s []

/-- Model of `strings.Replace(s, "\r\n", ", ", -1)`. -/
def replaceCRLF : GoString → GoString
  | '\r' :: '\n' :: rest => ',' :: ' ' :: replaceCRLF rest
  | c :: rest => c :: replaceCRLF rest
  | [] => []

/-- Model of `strings.Replace(s, "\n", " ", -1)`. -/
def replaceLF : GoString → GoString
  | [] => []
  | c :: rest => (if c = '\n' then ' ' else c) :: replaceLF rest

/-! ## Part 3. `main.go` -/

namespace Main

/-- Photo of a face (`inference.Face.Photo`). -/
structure Photo where
  Caption : GoString
  SourceURL : GoString
  deriving DecidableEq

/-- Face of an inference (`inference.Face`). -/
structure Face where
  ID : Nat
  ImageURL : GoString
  Photo : Photo
  deriving DecidableEq

/-- Label of the recognition service. -/
structure Label where
  ID : Int
  Name : GoString
  Description : GoString
  deriving DecidableEq

/-- An inference of the recognition service. `Score` is a `float64`, kept as its bit
pattern: it is only ever formatted. -/
structure Inference where
  ID : Nat
  Score : Nat
  Face : Face
  Label : Label
  deriving DecidableEq

/-- A recognition client, as `recognizer.NewClient` builds it from its three arguments. -/
structure Client where
  EndpointBase : GoString
  Email : GoString
  Token : GoString
  deriving DecidableEq

/-- The calls `main.go` makes to its collaborators. `Printf` and `Fatal` are the calls to
`log.Printf` (with its format) and `log.Fatal`. -/
inductive Effect where
  | Printf (format : String)
  | Fatal
  | WriteHeader (status : Nat)
  | GetProfile (userID : GoString)
  | NewClient (endpointBase email token : GoString)
  | RegisterUser (client : Client) (userID displayName : GoString)
  | Labels (client : Client) (query : GoString)
  | Inferences (client : Client) (labelIDs : List Int)
  | Perm (n : Nat)
  | AcceptInference (client : Client) (id : GoString)
  | ReplyMessage (replyToken : GoString) (message : SendingMessage)
  deriving DecidableEq

/-- The collaborators of `main.go`. The first argument of a call is the trace of the calls
made before it, so an answer may depend on everything that happened so far. `Getenv`,
`urlParse`, `withImageQuery` (the `String()` of a parsed URL whose query is set to
`image_url=...`) and `formatScore` (the verb `%.5f`) are pure. -/
structure World where
  GetProfile : List Effect → GoString → Except String GoString
  NewClient : List Effect → GoString → GoString → GoString → Except String Unit
  RegisterUser : List Effect → Client → GoString → GoString → Except String GoString
  Labels : List Effect → Client → GoString → Except String (List Label)
  Inferences : List Effect → Client → List Int → Except String (List Inference)
  Perm : List Effect → Nat → List Nat
  AcceptInference : List Effect → Client → GoString → Except String GoString
  ReplyMessage : List Effect → GoString → SendingMessage → Except String Unit
  Getenv : String → GoString
  urlParse : GoString → Except String GoString
  withImageQuery : GoString → GoString → GoString
  formatScore : Nat → GoString

/-- The struct `recognizerConfig`. -/
structure recognizerConfig where
  EndpointBase : GoString
  AdminEmail : GoString
  AdminToken : GoString
  deriving DecidableEq

/-- The struct `app`: its configuration, and the collaborators reached through it. -/
structure app where
  world : World
  config : recognizerConfig

/-- Model of `log.Printf(format, ...)`. -/
def Printf (format : String) : Run Effect Unit := Run.call (.Printf format) fun _ => ()

/-- Model of `log.Fatal(err)`: the message is logged and the process exits with status 1. -/
def Fatal {α : Type} : Run Effect α :=
  Run.andThen (Run.call (α := Unit) Effect.Fatal fun _ => ()) fun _ => Run.exit 1

/-- Model of `recognizer.NewClient(endpointBase, email, token)`. -/
def NewClient (a : app) (endpointBase email token : GoString) :
    Run Effect (Except String Client) := do
  match ← Run.call (.NewClient endpointBase email token)
      (fun tr => a.world.NewClient tr endpointBase email token) with
  | .error e => pure (.error e)
  | .ok () => pure (.ok { EndpointBase := endpointBase, Email := email, Token := token })

/-- Model of `(*app).getRecognizerToken`. -/
def getRecognizerToken (a : app) (userID : GoString) : Run Effect (Except String GoString) := do
  match ← Run.call (.GetProfile userID) (fun tr => a.world.GetProfile tr userID) with
  | .error e => pure (.error e)
  | .ok displayName =>
    match ← NewClient a a.config.EndpointBase a.config.AdminEmail a.config.AdminToken with
    | .error e => pure (.error e)
    | .ok client =>
      match ← Run.call (.RegisterUser client userID displayName)
          (fun tr => a.world.RegisterUser tr client userID displayName) with
      | .error e => pure (.error e)
      | .ok token => pure (.ok token)

/-- The column title of `sendCarousel` before truncation: `"%d:[%.5f] %s"` of face id,
score and label name, followed by the description in parentheses when there is one. -/
def composedTitle (a : app) (inference : Inference) : GoString :=
  let title := Nat.toDigits 10 inference.Face.ID ++ ":[".toList ++
    a.world.formatScore inference.Score ++ "] ".toList ++ inference.Label.Name
  if inference.Label.Description ≠ [] then
    title ++ (" (".toList ++ replaceCRLF inference.Label.Description ++ ")".toList)
  else title

/-- The column title of `sendCarousel`: the composed title, cut when it has more than 40
runes. -/
def columnTitle (a : app) (inference : Inference) : GoString :=
  let title := composedTitle a inference
  if title.length > 40 then title.take 39 ++ "…".toList else title

/-- The caption of `sendCarousel` before truncation: line feeds become spaces. -/
def composedText (inference : Inference) : GoString :=
  replaceLF inference.Face.Photo.Caption

/-- The column text of `sendCarousel`: the caption, cut when it has more than 60 runes. -/
def columnText (inference : Inference) : GoString :=
  let text := composedText inference
  if text.length > 60 then text.take 59 ++ "…".toList else text

/-- The data of the postback action of a column: `strings.Join` of the two formatted ids
with `","`. -/
def postbackData (faceID inferenceID : Nat) : GoString :=
  Join [FormatUint (uint64 faceID), FormatUint (uint64 inferenceID)] ",".toList

/-- One pass through the body of the loop of `sendCarousel` for the inference read:
`url.Parse` may fail, otherwise the column is built. -/
def newColumn (a : app) (inference : Inference) : Except String CarouselColumn :=
  match a.world.urlParse (a.world.Getenv "APP_URL" ++ "/thumbnail".toList) with
  | .error e => .error e
  | .ok thumbnailImageURL =>
    .ok { ThumbnailImageURL := a.world.withImageQuery thumbnailImageURL inference.Face.ImageURL,
          Title := columnTitle a inference,
          Text := columnText inference,
          Actions := [
            .URI "🔍 くわしく".toList inference.Face.Photo.SourceURL,
            .Postback "🙆 あってる".toList (postbackData inference.Face.ID inference.ID) [],
            .Message "🙅 ちがうよ".toList "ちがうよ".toList] }

/-- The loop `for i := 0; i < num; i++` of `sendCarousel`, with `remaining = num - i`
passes still to run. Reading `ids[i]` or `inferences[ids[i]]` out of range panics. -/
def columnsLoop (a : app) (inferences : List Inference) (ids : List Nat) :
    Nat → Nat → List CarouselColumn → Outcome (List CarouselColumn)
  | 0, _, columns => .ok columns
  | remaining + 1, i, columns =>
    match ids[i]? with
    | none => .panic "index out of range"
    | some j =>
      match inferences[j]? with
      | none => .panic "index out of range"
      | some inference =>
        match newColumn a inference with
        | .error e => .error e
        | .ok column => columnsLoop a inferences ids remaining (i + 1) (columns ++ [column])

/-- The number of columns `sendCarousel` builds: `num := 5`, lowered to `len(ids)`. -/
def numColumns (ids : List Nat) : Nat := if ids.length < 5 then ids.length else 5

/-- The columns `sendCarousel` builds from the inferences and the permutation drawn. -/
def carouselColumns (a : app) (inferences : List Inference) (ids : List Nat) :
    Outcome (List CarouselColumn) :=
  columnsLoop a inferences ids (numColumns ids) 0 []

/-- Model of `(*app).sendCarousel`. -/
def sendCarousel (a : app) (userID replyToken query : GoString) :
    Run Effect (Except String Unit) := do
  match ← getRecognizerToken a userID with
  | .error e => pure (.error e)
  | .ok token =>
    match ← NewClient a a.config.EndpointBase (userID ++ "@line.me".toList) token with
    | .error e => pure (.error e)
    | .ok client =>
      match ← Run.call (.Labels client query) (fun tr => a.world.Labels tr client query) with
      | .error e => pure (.error e)
      | .ok labels =>
        let labelIDs := labels.map fun label => label.ID
        match ← Run.call (.Inferences client labelIDs)
            (fun tr => a.world.Inferences tr client labelIDs) with
        | .error e => pure (.error e)
        | .ok inferences =>
          if inferences.length < 1 then pure (.error "empty inferences")
          else do
            let ids ← Run.call (.Perm inferences.length)
              (fun tr => a.world.Perm tr inferences.length)
            match carouselColumns a inferences ids with
            | .panic msg => Run.panic msg
            | .error e => pure (.error e)
            | .ok columns =>
              let message := SendingMessage.Carousel "template message".toList columns
              match ← Run.call (.ReplyMessage replyToken message)
                  (fun tr => a.world.ReplyMessage tr replyToken message) with
              | .error e => pure (.error e)
              | .ok () => pure (.ok ())

/-- The template message `handler` replies with after a successful accept: a confirm
template whose text quotes `ids[0]` and whose second action opens `resultURL`. -/
def confirmMessage (id0 resultURL : GoString) : SendingMessage :=
  .Confirm "template message".toList ("id:".toList ++ id0 ++ " を更新しました！".toList)
    (.Message "やっぱちがう".toList "やっぱちがう".toList) (.URI "確認する".toList resultURL)

/-- The postback branch of `handler` once the client is built: split the data, accept
`ids[1]`, and confirm with `ids[0]`. -/
def acceptPostback (a : app) (event : Event) (client : Client) : Run Effect Unit := do
  let ids := Split event.PostbackData
  match ids[1]? with
  | none => Run.panic "index out of range [1]"
  | some id1 =>
    match ← Run.call (.AcceptInference client id1)
        (fun tr => a.world.AcceptInference tr client id1) with
    | .error _ => Printf "accept error: %v"
    | .ok resultURL =>
      match ids[0]? with
      | none => Run.panic "index out of range [0]"
      | some id0 =>
        let message := confirmMessage id0 resultURL
        match ← Run.call (.ReplyMessage event.ReplyToken message)
            (fun tr => a.world.ReplyMessage tr event.ReplyToken message) with
        | .error _ => Printf "send message error: %v"
        | .ok () => pure ()

/-- The body of the loop of `handler` for one event. -/
def handleEvent (a : app) (event : Event) : Run Effect Unit := do
  if event.Source.Kind ≠ EventSourceType.User then Printf "not from user: %v"
  else
    let userID := event.Source.UserID
    match event.Kind with
    | .Follow =>
      match ← getRecognizerToken a userID with
      | .error _ => Fatal
      | .ok _ => Printf "token: %v"
    | .Message =>
      match event.Message with
      | .Text text => do
        Printf "text message from %s: %v"
        let query := if text = "all".toList then [] else text
        match ← sendCarousel a event.Source.UserID event.ReplyToken query with
        | .error _ => Printf "send error: %v"
        | .ok () => pure ()
      | _ => pure ()
    | .Postback => do
      Printf "got postback: %s"
      match ← getRecognizerToken a userID with
      | .error _ => Fatal
      | .ok token =>
        match ← NewClient a a.config.EndpointBase (userID ++ "@line.me".toList) token with
        | .error _ => Fatal
        | .ok client => acceptPostback a event client
    | _ => Printf "not message/postback event: %v"

/-- The loop `for _, event := range events` of `handler`. -/
def handleEvents (a : app) : List Event → Run Effect Unit
  | [] => pure ()
  | event :: events => do
    handleEvent a event
    handleEvents a events

/-- Model of `(*app).handler`; `parsed` is what `a.bot.ParseRequest(r)` returns. -/
def handler (a : app) (parsed : Except String (List Event)) : Run Effect Unit :=
  match parsed with
  | .error _ => do
    Printf "parse request error: %v"
    Run.call (.WriteHeader 500) fun _ => ()
  | .ok events => handleEvents a events

end Main

/-! ## Part 4. `app/callback_handler.go` -/

namespace App

/-- Modelled from the spec: the type `postbackAction` with its constants
`postbackActionAccept` and `postbackActionReject`, declared outside the files at hand. A
postback action is tagged Accept or Reject; any other decoded tag is `Other`. -/
inductive postbackAction where
  | Accept
  | Reject
  | Other (tag : GoString)
  deriving DecidableEq

/-- Modelled from the spec: the struct `postbackData`, declared outside the files at hand:
the action tag with the two unsigned ids it carries. -/
structure postbackData where
  Action : postbackAction
  FaceID : Nat
  InferenceID : Nat
  deriving DecidableEq

/-- A recognition client, as `recognizer.NewClient` builds it from its two arguments. -/
structure Client where
  Email : GoString
  Token : GoString
  deriving DecidableEq

/-- The calls `handlePostback` makes to its collaborators. -/
inductive Effect where
  | Printf (format : String)
  | RetrieveUserToken (userID : GoString)
  | NewClient (email token : GoString)
  | AcceptInference (client : Client) (inferenceID : Nat)
  | RejectInference (client : Client) (inferenceID : Nat)
  | ReplyMessage (replyToken : GoString) (message : SendingMessage)
  deriving DecidableEq

/-- The collaborators of `handlePostback`; the first argument of a call is the trace of
the calls made before it. `RetrieveUserToken` is the method `retrieveUserToken` of
`BotApp`, and `Unmarshal` is `json.Unmarshal` into a `postbackData` (pure). -/
structure BotApp where
  RetrieveUserToken : List Effect → GoString → Except String GoString
  NewClient : List Effect → GoString → GoString → Except String Unit
  Unmarshal : GoString → Except String postbackData
  AcceptInference : List Effect → Client → Nat → Except String Unit
  RejectInference : List Effect → Client → Nat → Except String Unit
  ReplyMessage : List Effect → GoString → SendingMessage → Except String Unit

/-- The generic failure text of `handlePostback`. -/
def failureText : GoString := "処理できませんでした😞".toList

/-- The accept-or-reject switch of `handlePostback`: it yields the text to reply with. A
failed call is logged and yields the failure text; a tag that is neither constant leaves
the text empty. -/
def acceptOrReject (app : BotApp) (client : Client) (data : postbackData) :
    Run Effect GoString := do
  match data.Action with
  | .Accept =>
    match ← Run.call (.AcceptInference client data.InferenceID)
        (fun tr => app.AcceptInference tr client data.InferenceID) with
    | .error _ => do
      Run.call (.Printf "accept error: %v") fun _ => ()
      pure failureText
    | .ok () =>
      pure ("ID:".toList ++ Nat.toDigits 10 data.FaceID ++ " を更新しました 🙆".toList)
  | .Reject =>
    match ← Run.call (.RejectInference client data.InferenceID)
        (fun tr => app.RejectInference tr client data.InferenceID) with
    | .error _ => do
      Run.call (.Printf "reject error: %v") fun _ => ()
      pure failureText
    | .ok () =>
      pure ("ID:".toList ++ Nat.toDigits 10 data.FaceID ++ " を更新しました 🙅".toList)
  | .Other _ => pure []

/-- Model of `(*BotApp).handlePostback`. -/
def handlePostback (app : BotApp) (event : Event) : Run Effect (Except String Unit) := do
  if event.Source.Kind ≠ EventSourceType.User then pure (.error "not from user: %v")
  else do
    let userID := event.Source.UserID
    Run.call (.Printf "got postback: %s") fun _ => ()
    match ← Run.call (.RetrieveUserToken userID)
        (fun tr => app.RetrieveUserToken tr userID) with
    | .error e => pure (.error e)
    | .ok token =>
      let email := userID ++ "@line.me".toList
      match ← Run.call (.NewClient email token) (fun tr => app.NewClient tr email token) with
      | .error e => pure (.error e)
      | .ok () =>
        let client : Client := { Email := email, Token := token }
        match app.Unmarshal event.PostbackData with
        | .error e => pure (.error e)
        | .ok data => do
          let text ← acceptOrReject app client data
          match ← Run.call (.ReplyMessage event.ReplyToken (.Text text))
              (fun tr => app.ReplyMessage tr event.ReplyToken (.Text text)) with
          | .error _ => pure (.error "send message error: %v")
          | .ok () => pure (.ok ())

end App
/-- Block cipher used in the examples: sixteen bytes derived from the input block. -/
def exampleBlock (blk : List Nat) : List Nat :=
  (List.range 16).map fun i => (blk.getD i 0 * 7 + i + 3) % 256


/-! ## Part 5. Example inputs -/

/-- An event of kind `kind` from the user `userID`, with postback data `data`. -/
def userEvent (kind : EventType) (userID data : GoString) : Event where
  Kind := kind
  Source := { Kind := .User, UserID := userID }
  ReplyToken := "reply-token".toList
  Message := .Other
  PostbackData := data

namespace Main

/-- Collaborators that always succeed. -/
def exampleWorld : World where
  GetProfile := fun _ _ => .ok "Alice".toList
  NewClient := fun _ _ _ _ => .ok ()
  RegisterUser := fun _ _ _ _ => .ok "user-token".toList
  Labels := fun _ _ _ => .ok []
  Inferences := fun _ _ _ => .ok []
  Perm := fun _ n => List.range n
  AcceptInference := fun _ _ _ => .ok "https://recognizer.example/faces/1".toList
  ReplyMessage := fun _ _ _ => .ok ()
  Getenv := fun _ => "https://bot.example".toList
  urlParse := fun s => .ok s
  withImageQuery := fun u image => u ++ "?image_url=".toList ++ image
  formatScore := fun _ => "0.98765".toList

/-- The configuration of the examples. -/
def exampleConfig : recognizerConfig where
  EndpointBase := "https://recognizer.example".toList
  AdminEmail := "admin@example.com".toList
  AdminToken := "admin-token".toList

/-- An application whose collaborators always succeed. -/
def exampleApp : app where
  world := exampleWorld
  config := exampleConfig

/-- An application whose profile fetch always fails. -/
def failingProfileApp : app where
  world := { exampleWorld with GetProfile := fun _ _ => .error "profile unavailable" }
  config := exampleConfig

/-- The client `exampleApp` builds for the user `U1`. -/
def exampleClient : Client where
  EndpointBase := exampleConfig.EndpointBase
  Email := "U1@line.me".toList
  Token := "user-token".toList

/-- The calls `exampleApp` makes for a postback of the user `U1` up to the construction of
the user's client. -/
def exampleTrace : List Effect := [
  .Printf "got postback: %s",
  .GetProfile "U1".toList,
  .NewClient exampleConfig.EndpointBase exampleConfig.AdminEmail exampleConfig.AdminToken,
  .RegisterUser (Client.mk exampleConfig.EndpointBase exampleConfig.AdminEmail
    exampleConfig.AdminToken) "U1".toList "Alice".toList,
  .NewClient exampleConfig.EndpointBase "U1@line.me".toList "user-token".toList]

/-- An inference whose composed title has 43 runes and whose caption has 20. -/
def exampleInference : Inference where
  ID := 17
  Score := 0
  Face := { ID := 42, ImageURL := "https://img.example/42.jpg".toList,
            Photo := { Caption := "夏の思い出\n海辺にて撮影、八月の午後の光".toList,
                       SourceURL := "https://photos.example/7".toList } }
  Label := { ID := 3, Name := "山田花子".toList,
             Description := "アイドルグループ所属\r\n東京都出身の歌手、女優".toList }

/-- Eight inferences with distinct ids. -/
def exampleInferences : List Inference :=
  (List.range 8).map fun i =>
    { exampleInference with ID := 17 + i, Face := { exampleInference.Face with ID := 42 + i } }

/-- The permutation `7, 6, ..., 0`. -/
def examplePerm : List Nat := (List.range 8).reverse

/-- An application whose recognition service lists the eight inferences and whose random
source draws `examplePerm`. -/
def carouselApp : app where
  world := { exampleWorld with
    Inferences := fun _ _ _ => .ok exampleInferences
    Perm := fun _ _ => examplePerm }
  config := exampleConfig

/-- The same application with an `APP_URL` that does not parse. -/
def unparsableApp : app where
  world := { carouselApp.world with urlParse := fun _ => .error "missing protocol scheme" }
  config := exampleConfig

/-- The calls `carouselApp` makes for a text message of the user `U1` up to the draw of the
permutation. -/
def carouselTrace : List Effect := [
  .GetProfile "U1".toList,
  .NewClient exampleConfig.EndpointBase exampleConfig.AdminEmail exampleConfig.AdminToken,
  .RegisterUser (Client.mk exampleConfig.EndpointBase exampleConfig.AdminEmail
    exampleConfig.AdminToken) "U1".toList "Alice".toList,
  .NewClient exampleConfig.EndpointBase "U1@line.me".toList "user-token".toList,
  .Labels exampleClient [],
  .Inferences exampleClient [],
  .Perm 8]

/-- The column built from `exampleInference`. -/
def exampleColumn : CarouselColumn where
  ThumbnailImageURL :=
    "https://bot.example/thumbnail?image_url=https://img.example/42.jpg".toList
  Title := "42:[0.98765] 山田花子 (アイドルグループ所属, 東京都出身の歌手…".toList
  Text := "夏の思い出 海辺にて撮影、八月の午後の光".toList
  Actions := [
    .URI "🔍 くわしく".toList "https://photos.example/7".toList,
    .Postback "🙆 あってる".toList "42,17".toList [],
    .Message "🙅 ちがうよ".toList "ちがうよ".toList]

end Main

namespace App

/-- Collaborators that succeed, with a decoder that accepts nothing. -/
def undecodableApp : BotApp where
  RetrieveUserToken := fun _ _ => .ok "user-token".toList
  NewClient := fun _ _ _ => .ok ()
  Unmarshal := fun _ => .error "unexpected end of JSON input"
  AcceptInference := fun _ _ _ => .ok ()
  RejectInference := fun _ _ _ => .ok ()
  ReplyMessage := fun _ _ _ => .ok ()

/-- Collaborators whose decoder yields an accept action and whose recognition service
refuses every accept and reject call. -/
def refusingApp : BotApp where
  RetrieveUserToken := fun _ _ => .ok "user-token".toList
  NewClient := fun _ _ _ => .ok ()
  Unmarshal := fun _ => .ok { Action := .Accept, FaceID := 42, InferenceID := 17 }
  AcceptInference := fun _ _ _ => .error "already resolved"
  RejectInference := fun _ _ _ => .error "already resolved"
  ReplyMessage := fun _ _ _ => .ok ()

/-- A postback event sent from a group. -/
def groupPostback : Event where
  Kind := .Postback
  Source := { Kind := .Group, UserID := [] }
  ReplyToken := "reply-token".toList
  Message := .Other
  PostbackData := "42,17".toList

end App
/-! ### Lemmas for the base64 codec -/

namespace Base64

theorem decodeMap_encodeByte (v : Nat) (h : v < 64) : decodeMap (encodeByte v) = v := by
  have key : ∀ w : Fin 64, decodeMap (encodeByte w.val) = w.val := by decide
  exact key ⟨v, h⟩

theorem lor_shift (a b k : Nat) (h : b < 2 ^ k) : a <<< k ||| b = a * 2 ^ k + b := by
  rw [Nat.shiftLeft_eq, Nat.mul_comm a, Nat.mul_add_lt_is_or h]

end Base64
namespace Base64
theorem pack3 (b0 b1 b2 : Nat) (h1 : b1 < 256) (h2 : b2 < 256) :
    b0 <<< 16 ||| b1 <<< 8 ||| b2 = b0 * 65536 + b1 * 256 + b2 := by
  rw [Nat.lor_assoc, lor_shift b1 b2 8 (by omega), lor_shift b0 _ 16 (by omega)]
  omega

theorem pack4 (d0 d1 d2 d3 : Nat) (h1 : d1 < 64) (h2 : d2 < 64) (h3 : d3 < 64) :
    d0 <<< 18 ||| d1 <<< 12 ||| d2 <<< 6 ||| d3 = d0 * 262144 + d1 * 4096 + d2 * 64 + d3 := by
  rw [Nat.lor_assoc, Nat.lor_assoc, lor_shift d2 d3 6 (by omega),
    lor_shift d1 _ 12 (by omega), lor_shift d0 _ 18 (by omega)]
  omega

theorem and63 (x : Nat) : x &&& 0x3F = x % 64 := Nat.and_pow_two_sub_one_eq_mod x 6

theorem quantum4 (b0 b1 b2 : Nat) (h0 : b0 < 256) (h1 : b1 < 256) (h2 : b2 < 256) :
    quantumBytes [(b0 * 65536 + b1 * 256 + b2) / 262144 % 64,
      (b0 * 65536 + b1 * 256 + b2) / 4096 % 64,
      (b0 * 65536 + b1 * 256 + b2) / 64 % 64, (b0 * 65536 + b1 * 256 + b2) % 64]
      = [b0, b1, b2] := by
  simp only [quantumBytes, List.getD_cons_zero, List.getD_cons_succ, List.length_cons,
    List.length_nil]
  rw [pack4 _ _ _ _ (by omega) (by omega) (by omega)]
  simp only [Nat.shiftRight_eq_div_pow]
  simp
  refine ⟨?_, ?_, ?_⟩ <;> omega

end Base64
namespace Base64
theorem decodeFrom_encodeByte (v : Nat) (h : v < 64) (cs dbuf : List Nat) :
    decodeFrom (encodeByte v :: cs) dbuf =
      if dbuf.length = 3 then
        match decodeFrom cs [] with
        | .ok out => .ok (quantumBytes (dbuf ++ [v]) ++ out)
        | .error e => .error e
      else decodeFrom cs (dbuf ++ [v]) := by
  have hv : decodeMap (encodeByte v) ≠ 0xff := by
    rw [decodeMap_encodeByte v h]; omega
  rw [decodeFrom, if_pos hv, decodeMap_encodeByte v h]

theorem quantum3 (b0 b1 : Nat) (h0 : b0 < 256) (h1 : b1 < 256) :
    quantumBytes [(b0 * 65536 + b1 * 256) / 262144 % 64,
      (b0 * 65536 + b1 * 256) / 4096 % 64, (b0 * 65536 + b1 * 256) / 64 % 64]
      = [b0, b1] := by
  simp only [quantumBytes, List.getD_cons_zero, List.getD_cons_succ, List.length_cons,
    List.length_nil, List.getD_nil]
  rw [pack4 _ _ _ _ (by omega) (by omega) (by omega)]
  simp only [Nat.shiftRight_eq_div_pow]
  simp
  refine ⟨?_, ?_⟩ <;> omega

theorem quantum2 (b0 : Nat) (h0 : b0 < 256) :
    quantumBytes [(b0 * 65536) / 262144 % 64, (b0 * 65536) / 4096 % 64] = [b0] := by
  simp only [quantumBytes, List.getD_cons_zero, List.getD_cons_succ, List.length_cons,
    List.length_nil, List.getD_nil]
  rw [pack4 _ _ _ _ (by omega) (by omega) (by omega)]
  simp only [Nat.shiftRight_eq_div_pow]
  simp
  omega

theorem decodeFrom_encode (bs : List Nat) (h : ∀ b ∈ bs, b < 256) :
    decodeFrom (encode bs) [] = .ok bs := by
  induction bs using encode.induct with
  | case1 b0 b1 b2 rest ih =>
    have h0 : b0 < 256 := h b0 (by simp)
    have h1 : b1 < 256 := h b1 (by simp)
    have h2 : b2 < 256 := h b2 (by simp)
    have hr : ∀ b ∈ rest, b < 256 := fun b hb => h b (by simp [hb])
    simp only [encode, and63, Nat.shiftRight_eq_div_pow, pack3 b0 b1 b2 h1 h2]
    rw [decodeFrom_encodeByte _ (Nat.mod_lt _ (by omega)),
      if_neg (by simp), decodeFrom_encodeByte _ (Nat.mod_lt _ (by omega)),
      if_neg (by simp), decodeFrom_encodeByte _ (Nat.mod_lt _ (by omega)),
      if_neg (by simp), decodeFrom_encodeByte _ (Nat.mod_lt _ (by omega)),
      if_pos (by simp), ih hr]
    have q := quantum4 b0 b1 b2 h0 h1 h2
    simp only [List.nil_append, List.cons_append] at q ⊢
    norm_num at q ⊢
    rw [q]; rfl
  | case2 b0 b1 =>
    have h0 : b0 < 256 := h b0 (by simp)
    have h1 : b1 < 256 := h b1 (by simp)
    have e : b0 <<< 16 ||| b1 <<< 8 = b0 * 65536 + b1 * 256 := by
      have := pack3 b0 b1 0 h1 (by omega)
      simpa using this
    simp only [encode, and63, Nat.shiftRight_eq_div_pow, e]
    rw [decodeFrom_encodeByte _ (Nat.mod_lt _ (by omega)),
      if_neg (by simp), decodeFrom_encodeByte _ (Nat.mod_lt _ (by omega)),
      if_neg (by simp), decodeFrom_encodeByte _ (Nat.mod_lt _ (by omega)),
      if_neg (by simp)]
    have q := quantum3 b0 b1 h0 h1
    simp only [List.nil_append, List.cons_append, decodeFrom, List.length_cons,
      List.length_nil] at q ⊢
    norm_num at q ⊢
    rw [q]
  | case3 b0 =>
    have h0 : b0 < 256 := h b0 (by simp)
    simp only [encode, and63, Nat.shiftRight_eq_div_pow, Nat.shiftLeft_eq]
    rw [decodeFrom_encodeByte _ (Nat.mod_lt _ (by omega)),
      if_neg (by simp), decodeFrom_encodeByte _ (Nat.mod_lt _ (by omega)),
      if_neg (by simp)]
    have q := quantum2 b0 h0
    simp only [List.nil_append, List.cons_append, decodeFrom, List.length_cons,
      List.length_nil] at q ⊢
    norm_num at q ⊢
    rw [q]
  | case4 => rfl

end Base64

namespace CFB

theorem XORKeyStream_length (E : List Nat → List Nat) (src : List Nat) :
    ∀ x : cfb, (XORKeyStream E x src).length = src.length := by
  induction src with
  | nil => intro x; rfl
  | cons s src ih => intro x; simp only [XORKeyStream, List.length_cons, ih]

theorem getD_lt_of_isBytes (l : List Nat) (i : Nat) (h : IsBytes l) : l.getD i 0 < 256 := by
  rw [List.getD_eq_getElem?_getD]
  cases hi : l[i]? with
  | none => simp
  | some b =>
    have hb : b ∈ l := List.getElem?_mem hi
    simpa using h b hb

theorem refill_out_isBytes (E : List Nat → List Nat) (hE : ∀ blk, IsBytes (E blk))
    (x : cfb) (hx : IsBytes x.out) : IsBytes (refill E x).out := by
  unfold refill
  split_ifs
  · exact hE _
  · exact hx

theorem XORKeyStream_isBytes (E : List Nat → List Nat) (hE : ∀ blk, IsBytes (E blk))
    (src : List Nat) (hs : IsBytes src) :
    ∀ x : cfb, IsBytes x.out → IsBytes (XORKeyStream E x src) := by
  induction src with
  | nil => intro x _ b hb; simp [XORKeyStream] at hb
  | cons s src ih =>
    intro x hx
    have hs0 : s < 256 := hs s (by simp)
    have hsrc : IsBytes src := fun b hb => hs b (by simp [hb])
    have hr := refill_out_isBytes E hE x hx
    simp only [XORKeyStream]
    intro b hb
    rcases List.mem_cons.1 hb with rfl | hb
    · exact Nat.xor_lt_two_pow (n := 8) hs0 (getD_lt_of_isBytes _ _ hr)
    · exact ih hsrc (feed _ _) hr b hb

theorem xor_cancel (s k : Nat) : s ^^^ k ^^^ k = s := by
  rw [Nat.xor_assoc, Nat.xor_self, Nat.xor_zero]

theorem XORKeyStream_roundtrip (E : List Nat → List Nat) (src : List Nat) :
    ∀ next out outUsed,
      XORKeyStream E { next := next, out := out, outUsed := outUsed, decrypt := true }
        (XORKeyStream E { next := next, out := out, outUsed := outUsed, decrypt := false } src)
        = src := by
  induction src with
  | nil => intro _ _ _; rfl
  | cons s src ih =>
    intro next out outUsed
    by_cases hu : outUsed = out.length
    · simp only [XORKeyStream, refill, feed, hu, if_true, xor_cancel, ih]
      simp [ih]
    · simp only [XORKeyStream, refill, feed, hu, if_false, xor_cancel, ih]
      simp [ih]

end CFB

/-! ### The token cipher -/

theorem DecodeString_encode (bs : List Nat) (h : IsBytes bs) :
    Base64.DecodeString (Base64.encode bs) =
      .ok { array := bs ++ List.replicate
              (Base64.DecodedLen (Base64.encode bs).length - bs.length) 0,
            len := bs.length } := by
  simp only [Base64.DecodeString, Base64.decodeFrom_encode bs h]

theorem encode_injective (a b : List Nat) (ha : IsBytes a) (hb : IsBytes b)
    (h : Base64.encode a = Base64.encode b) : a = b := by
  have h1 := Base64.decodeFrom_encode a ha
  rw [h, Base64.decodeFrom_encode b hb] at h1
  exact (Except.ok.inj h1).symm

theorem isBytes_append (a b : List Nat) (ha : IsBytes a) (hb : IsBytes b) :
    IsBytes (a ++ b) := by
  intro x hx
  rcases List.mem_append.1 hx with h | h
  · exact ha x h
  · exact hb x h

theorem isBytes_replicate_zero (n : Nat) : IsBytes (List.replicate n 0) := by
  intro x hx
  rw [List.eq_of_mem_replicate hx]; omega

theorem encrypt_eq (E : List Nat → List Nat) (iv p : List Nat) (hiv : iv.length = 16) :
    encrypt E (.ok iv) p = .ok (Base64.encode (iv ++ CFB.XORKeyStream E
      { next := iv, out := List.replicate 16 0, outUsed := 16, decrypt := false } p)) := by
  simp [encrypt, CFB.newCFB, CFB.BlockSize, hiv, Base64.EncodeToString]

theorem decrypt_encode (E : List Nat → List Nat) (iv body : List Nat)
    (hiv : iv.length = 16) (hb : IsBytes (iv ++ body)) :
    decrypt E (Base64.encode (iv ++ body)) = .ok (CFB.XORKeyStream E
      { next := iv, out := List.replicate 16 0, outUsed := 16, decrypt := true } body) := by
  simp only [decrypt, DecodeString_encode _ hb, CFB.BlockSize, Base64.ByteSlice.bytes]
  have h1 : ¬ (16 > (iv ++ body ++ List.replicate
      (Base64.DecodedLen (Base64.encode (iv ++ body)).length - (iv ++ body).length) 0).length) := by
    simp only [List.length_append, hiv]; omega
  have h2 : ¬ (16 > (iv ++ body).length) := by
    simp only [List.length_append, hiv]; omega
  rw [if_neg h1, if_neg h2]
  have h3 : List.take 16 (iv ++ body ++ List.replicate
      (Base64.DecodedLen (Base64.encode (iv ++ body)).length - (iv ++ body).length) 0) = iv := by
    rw [List.append_assoc, List.take_append_of_le_length (by omega), List.take_of_length_le (by omega)]
  have h4 : List.drop 16 (List.take (iv ++ body).length (iv ++ body ++ List.replicate
      (Base64.DecodedLen (Base64.encode (iv ++ body)).length - (iv ++ body).length) 0)) = body := by
    rw [List.take_left', ← hiv, List.drop_left']
    · rfl
    · rfl
  rw [h3, h4]
  simp [CFB.newCFB, CFB.BlockSize, hiv]

/-- C1. Token cipher round trip: for every block cipher (whose `Encrypt` writes bytes),
every 16-byte IV read from the random source and every plaintext byte string `p`,
`encrypt` returns a text without error and `decrypt` of that text returns exactly `p`
without error. -/
theorem decrypt_encrypt_roundtrip (cipherBlock : List Nat → List Nat) (iv p : List Nat)
    (hE : ∀ blk, IsBytes (cipherBlock blk)) (hlen : iv.length = 16) (hiv : IsBytes iv)
    (hp : IsBytes p) :
    ∃ c, encrypt cipherBlock (.ok iv) p = .ok c ∧ decrypt cipherBlock c = .ok p := by
  refine ⟨_, encrypt_eq cipherBlock iv p hlen, ?_⟩
  have hb : IsBytes (iv ++ CFB.XORKeyStream cipherBlock
      { next := iv, out := List.replicate 16 0, outUsed := 16, decrypt := false } p) :=
    isBytes_append _ _ hiv
      (CFB.XORKeyStream_isBytes cipherBlock hE p hp _ (isBytes_replicate_zero 16))
  rw [decrypt_encode cipherBlock iv _ hlen hb, CFB.XORKeyStream_roundtrip]

theorem exampleBlock_isBytes (blk : List Nat) : IsBytes (exampleBlock blk) := by
  intro b hb
  simp only [exampleBlock, List.mem_map] at hb
  obtain ⟨i, _, rfl⟩ := hb
  exact Nat.mod_lt _ (by omega)

/-- Instance of `decrypt_encrypt_roundtrip` at a concrete input. -/
theorem decrypt_encrypt_roundtrip_witness :
    ∃ c, encrypt exampleBlock (.ok (List.range 16)) [0, 104, 195, 169, 255] = .ok c ∧
      decrypt exampleBlock c = .ok [0, 104, 195, 169, 255] :=
  decrypt_encrypt_roundtrip exampleBlock (List.range 16) [0, 104, 195, 169, 255]
    exampleBlock_isBytes (by decide) (by unfold IsBytes; decide) (by unfold IsBytes; decide)

/-- C10. IV freshness: for every block cipher and plaintext, two calls of `encrypt` that
draw different 16-byte IVs both succeed and return different ciphertext strings. -/
theorem encrypt_distinct_of_iv_ne (cipherBlock : List Nat → List Nat) (iv1 iv2 p : List Nat)
    (hE : ∀ blk, IsBytes (cipherBlock blk)) (hp : IsBytes p)
    (hlen1 : iv1.length = 16) (hiv1 : IsBytes iv1)
    (hlen2 : iv2.length = 16) (hiv2 : IsBytes iv2) (hne : iv1 ≠ iv2) :
    ∃ c1 c2, encrypt cipherBlock (.ok iv1) p = .ok c1 ∧
      encrypt cipherBlock (.ok iv2) p = .ok c2 ∧ c1 ≠ c2 := by
  refine ⟨_, _, encrypt_eq cipherBlock iv1 p hlen1, encrypt_eq cipherBlock iv2 p hlen2, ?_⟩
  intro h
  have hb1 := isBytes_append _ _ hiv1
    (CFB.XORKeyStream_isBytes cipherBlock hE p hp
      { next := iv1, out := List.replicate 16 0, outUsed := 16, decrypt := false }
      (isBytes_replicate_zero 16))
  have hb2 := isBytes_append _ _ hiv2
    (CFB.XORKeyStream_isBytes cipherBlock hE p hp
      { next := iv2, out := List.replicate 16 0, outUsed := 16, decrypt := false }
      (isBytes_replicate_zero 16))
  have h' := encode_injective _ _ hb1 hb2 h
  exact hne (List.append_inj h' (by rw [hlen1, hlen2])).1

/-- Instance of `encrypt_distinct_of_iv_ne` at a concrete input. -/
theorem encrypt_distinct_of_iv_ne_witness :
    ∃ c1 c2, encrypt exampleBlock (.ok (List.range 16)) [104, 105] = .ok c1 ∧
      encrypt exampleBlock (.ok (List.replicate 16 9)) [104, 105] = .ok c2 ∧ c1 ≠ c2 :=
  encrypt_distinct_of_iv_ne exampleBlock (List.range 16) (List.replicate 16 9) [104, 105]
    exampleBlock_isBytes (by unfold IsBytes; decide) (by decide) (by unfold IsBytes; decide)
    (by decide) (by unfold IsBytes; decide) (by decide)

/-- C4 (the defect). Every input that decodes without error to fewer than 16 bytes makes
`decrypt` panic instead of returning an error. The empty string and the text `QUJD`
decode to 0 and 3 bytes, and `decrypt` panics on both at `ciphertext[:aes.BlockSize]`;
twenty-two line feeds decode to 0 bytes in a buffer of capacity 16, and `decrypt` panics
at `ciphertext[aes.BlockSize:]`. -/
theorem decrypt_undersized_panics (cipherBlock : List Nat → List Nat) :
    (∀ src out, Base64.decodeFrom src [] = .ok out → out.length < 16 →
      ∃ msg, decrypt cipherBlock src = .panic msg) ∧
    Base64.decodeFrom [] [] = .ok [] ∧
    decrypt cipherBlock [] = .panic "slice bounds out of range [:16] with capacity" ∧
    Base64.decodeFrom [81, 85, 74, 68] [] = .ok [65, 66, 67] ∧
    decrypt cipherBlock [81, 85, 74, 68] =
      .panic "slice bounds out of range [:16] with capacity" ∧
    Base64.decodeFrom (List.replicate 22 10) [] = .ok [] ∧
    decrypt cipherBlock (List.replicate 22 10) =
      .panic "slice bounds out of range [16:]" := by
  refine ⟨?_, rfl, rfl, rfl, rfl, rfl, rfl⟩
  intro src out hdec hlen
  simp only [decrypt, Base64.DecodeString, hdec, CFB.BlockSize]
  split_ifs with h1
  · exact ⟨_, rfl⟩
  · exact ⟨_, rfl⟩

/-! ### Strings: digits, `Split` and `Join` -/

theorem digitChar_ne_comma (n : Nat) : Nat.digitChar (n % 10) ≠ ',' := by
  have key : ∀ d : Fin 10, Nat.digitChar d.val ≠ ',' := by decide
  exact key ⟨n % 10, Nat.mod_lt _ (by omega)⟩

theorem toDigitsCore_no_comma (fuel : Nat) :
    ∀ (n : Nat) (ds : List Char), ',' ∉ ds → ',' ∉ Nat.toDigitsCore 10 fuel n ds := by
  induction fuel with
  | zero => intro n ds h; simpa [Nat.toDigitsCore] using h
  | succ fuel ih =>
    intro n ds h
    have hd : ',' ∉ Nat.digitChar (n % 10) :: ds := by
      intro hmem
      rcases List.mem_cons.1 hmem with h1 | h1
      · exact digitChar_ne_comma _ h1.symm
      · exact h h1
    simp only [Nat.toDigitsCore]
    split_ifs
    · exact hd
    · exact ih _ _ hd

theorem toDigits_no_comma (n : Nat) : ',' ∉ Nat.toDigits 10 n :=
  toDigitsCore_no_comma _ n [] (by simp)

theorem splitComma_append (s : GoString) (hs : ',' ∉ s) :
    ∀ (rest field : GoString), splitComma (s ++ rest) field = splitComma rest (field ++ s) := by
  induction s with
  | nil => intro rest field; simp
  | cons c s ih =>
    intro rest field
    have hc : c ≠ ',' := fun h => hs (by simp [h])
    have hs1 : ',' ∉ s := fun h => hs (by simp [h])
    simp only [List.cons_append, splitComma, if_neg hc, List.append_eq]
    rw [ih hs1]
    simp

theorem Split_Join_pair (x y : GoString) (hx : ',' ∉ x) (hy : ',' ∉ y) :
    Split (Join [x, y] ",".toList) = [x, y] := by
  have h1 : Join [x, y] ",".toList = x ++ (',' :: (y ++ [])) := by
    simp [Join]
  rw [Split, h1, splitComma_append x hx, splitComma, if_pos rfl, splitComma_append y hy]
  simp [splitComma]

/-! ### The carousel columns -/

/-- C7. Truncation counted in runes: for the column built from any inference, a composed
title of more than 40 runes becomes its first 39 runes followed by the ellipsis, exactly
40 runes, and a composed title of at most 40 runes is unchanged; the same holds for the
caption with the ceiling 60 (first 59 runes and the ellipsis). -/
theorem column_truncation (a : Main.app) (inference : Main.Inference) (column : CarouselColumn)
    (hcol : Main.newColumn a inference = .ok column) :
    ((Main.composedTitle a inference).length > 40 →
        column.Title = (Main.composedTitle a inference).take 39 ++ ['…'] ∧
        column.Title.length = 40) ∧
      ((Main.composedTitle a inference).length ≤ 40 →
        column.Title = Main.composedTitle a inference) ∧
      ((Main.composedText inference).length > 60 →
        column.Text = (Main.composedText inference).take 59 ++ ['…'] ∧
        column.Text.length = 60) ∧
      ((Main.composedText inference).length ≤ 60 →
        column.Text = Main.composedText inference) := by
  have ht : column.Title = Main.columnTitle a inference ∧
      column.Text = Main.columnText inference := by
    unfold Main.newColumn at hcol
    split at hcol
    · cases hcol
    · cases hcol; exact ⟨rfl, rfl⟩
  rw [ht.1, ht.2]
  refine ⟨?_, ?_, ?_, ?_⟩
  · intro h
    have e : Main.columnTitle a inference = (Main.composedTitle a inference).take 39 ++ ['…'] := by
      simp only [Main.columnTitle, if_pos h]; rfl
    refine ⟨e, ?_⟩
    rw [e, List.length_append, List.length_take]
    simp only [List.length_singleton]
    omega
  · intro h
    simp only [Main.columnTitle, if_neg (Nat.not_lt.2 h)]
  · intro h
    have e : Main.columnText inference = (Main.composedText inference).take 59 ++ ['…'] := by
      simp only [Main.columnText, if_pos h]; rfl
    refine ⟨e, ?_⟩
    rw [e, List.length_append, List.length_take]
    simp only [List.length_singleton]
    omega
  · intro h
    simp only [Main.columnText, if_neg (Nat.not_lt.2 h)]

theorem columnsLoop_no_panic (a : Main.app) (inferences : List Main.Inference) (ids : List Nat)
    (hids : ∀ j ∈ ids, j < inferences.length) :
    ∀ (remaining i : Nat) (columns : List CarouselColumn), i + remaining ≤ ids.length →
      ∀ msg, Main.columnsLoop a inferences ids remaining i columns ≠ .panic msg := by
  intro remaining
  induction remaining with
  | zero => intro i columns _ msg h; simp [Main.columnsLoop] at h
  | succ remaining ih =>
    intro i columns hlen msg
    have hi : i < ids.length := by omega
    have hj : ids[i] < inferences.length := hids _ (List.getElem_mem hi)
    simp only [Main.columnsLoop, List.getElem?_eq_getElem hi, List.getElem?_eq_getElem hj]
    cases hc : Main.newColumn a inferences[ids[i]] with
    | error e => simp
    | ok column => exact ih (i + 1) _ (by omega) msg

theorem columnsLoop_ok (a : Main.app) (inferences : List Main.Inference) (ids : List Nat)
    (hids : ∀ j ∈ ids, j < inferences.length) (u : GoString)
    (hu : a.world.urlParse (a.world.Getenv "APP_URL" ++ "/thumbnail".toList) = .ok u) :
    ∀ (remaining i : Nat) (columns : List CarouselColumn), i + remaining ≤ ids.length →
      ∃ cols, Main.columnsLoop a inferences ids remaining i columns = .ok (columns ++ cols) ∧
        List.Forall₂ (fun j column => ∃ inference, inferences[j]? = some inference ∧
          Main.newColumn a inference = .ok column) ((ids.drop i).take remaining) cols := by
  intro remaining
  induction remaining with
  | zero =>
    intro i columns _
    exact ⟨[], by simp [Main.columnsLoop], by simp⟩
  | succ remaining ih =>
    intro i columns hlen
    have hi : i < ids.length := by omega
    have hj : ids[i] < inferences.length := hids _ (List.getElem_mem hi)
    obtain ⟨column, hcol⟩ : ∃ column, Main.newColumn a inferences[ids[i]] = .ok column := by
      simp only [Main.newColumn, hu]; exact ⟨_, rfl⟩
    obtain ⟨cols, hloop, hall⟩ := ih (i + 1) (columns ++ [column]) (by omega)
    refine ⟨column :: cols, ?_, ?_⟩
    · simp only [Main.columnsLoop, List.getElem?_eq_getElem hi, List.getElem?_eq_getElem hj,
        hcol, hloop]
      simp
    · rw [List.drop_eq_getElem_cons hi, List.take_succ_cons]
      exact List.Forall₂.cons ⟨_, List.getElem?_eq_getElem hj, hcol⟩ hall

/-! ### Runs -/

namespace Run

variable {ε α β : Type}

theorem bind_apply (m : Run ε α) (f : α → Run ε β) (tr : List ε) :
    (m >>= f) tr = match m tr with
      | .ret a tr1 => f a tr1
      | .exit c tr1 => .exit c tr1
      | .panic msg tr1 => .panic msg tr1 := rfl

theorem andThen_apply (m : Run ε α) (f : α → Run ε β) (tr : List ε) :
    (m.andThen f) tr = match m tr with
      | .ret a tr1 => f a tr1
      | .exit c tr1 => .exit c tr1
      | .panic msg tr1 => .panic msg tr1 := rfl

theorem pure_apply (a : α) (tr : List ε) : (pure a : Run ε α) tr = .ret a tr := rfl

theorem ret_apply (a : α) (tr : List ε) : (Run.ret a : Run ε α) tr = .ret a tr := rfl

theorem call_apply (e : ε) (answer : List ε → α) (tr : List ε) :
    Run.call e answer tr = .ret (answer tr) (tr ++ [e]) := rfl

theorem exit_apply (code : Nat) (tr : List ε) : (Run.exit code : Run ε α) tr = .exit code tr :=
  rfl

theorem panic_apply (msg : String) (tr : List ε) :
    (Run.panic msg : Run ε α) tr = .panic msg tr := rfl

end Run

/-! ### The handlers of `main.go` -/

theorem splitComma_ne_nil (s : GoString) : ∀ field, splitComma s field ≠ [] := by
  induction s with
  | nil => intro field; simp [splitComma]
  | cons c s ih =>
    intro field
    simp only [splitComma]
    split_ifs
    · simp
    · exact ih _

theorem splitComma_two_fields (s : GoString) (h : ',' ∈ s) :
    ∀ field, ∃ id0 id1 rest, splitComma s field = id0 :: id1 :: rest := by
  induction s with
  | nil => simp at h
  | cons c s ih =>
    intro field
    simp only [splitComma]
    split_ifs with hc
    · cases hs : splitComma s [] with
      | nil => exact absurd hs (splitComma_ne_nil s [])
      | cons id1 rest => exact ⟨field, id1, rest, rfl⟩
    · rcases List.mem_cons.1 h with h1 | h1
      · exact absurd h1.symm hc
      · exact ih h1 _

/-- C3 (amended). For a postback event from a user whose token is obtained and whose client
is built, and whose data contains at least one `,`: `ids` has at least two fields, so
`ids[1]` and `ids[0]` are in range, and `handler` validates nothing: it calls
`AcceptInference` with the second field as it is, logs `accept error` when that call
fails, and otherwise replies with the confirmation quoting the first field. -/
theorem handleEvent_postback_forwards_second_field (a : Main.app) (event : Event)
    (tr tr1 tr2 : List Main.Effect) (token : GoString) (client : Main.Client)
    (hsrc : event.Source.Kind = EventSourceType.User) (hkind : event.Kind = EventType.Postback)
    (htoken : Main.getRecognizerToken a event.Source.UserID
      (tr ++ [.Printf "got postback: %s"]) = .ret (.ok token) tr1)
    (hnew : a.world.NewClient tr1 a.config.EndpointBase
      (event.Source.UserID ++ "@line.me".toList) token = .ok ())
    (hclient : client = Main.Client.mk a.config.EndpointBase
      (event.Source.UserID ++ "@line.me".toList) token)
    (htr2 : tr2 = tr1 ++ [.NewClient a.config.EndpointBase
      (event.Source.UserID ++ "@line.me".toList) token])
    (hcomma : ',' ∈ event.PostbackData) :
    2 ≤ (Split event.PostbackData).length ∧
      Main.handleEvent a event tr =
        match a.world.AcceptInference tr2 client ((Split event.PostbackData).getD 1 []) with
        | .error _ => .ret () (tr2 ++ [.AcceptInference client
            ((Split event.PostbackData).getD 1 []), .Printf "accept error: %v"])
        | .ok resultURL =>
          match a.world.ReplyMessage
              (tr2 ++ [.AcceptInference client ((Split event.PostbackData).getD 1 [])])
              event.ReplyToken
              (Main.confirmMessage ((Split event.PostbackData).getD 0 []) resultURL) with
          | .error _ => .ret () (tr2 ++ [
              .AcceptInference client ((Split event.PostbackData).getD 1 []),
              .ReplyMessage event.ReplyToken
                (Main.confirmMessage ((Split event.PostbackData).getD 0 []) resultURL),
              .Printf "send message error: %v"])
          | .ok () => .ret () (tr2 ++ [
              .AcceptInference client ((Split event.PostbackData).getD 1 []),
              .ReplyMessage event.ReplyToken
                (Main.confirmMessage ((Split event.PostbackData).getD 0 []) resultURL)]) := by
  obtain ⟨id0, id1, rest, hsplit⟩ := splitComma_two_fields _ hcomma []
  have hS : Split event.PostbackData = id0 :: id1 :: rest := hsplit
  subst hclient htr2
  rw [hS]
  refine ⟨by simp, ?_⟩
  simp only [Main.handleEvent, hsrc, hkind, Main.Printf, Main.NewClient, Main.acceptPostback,
    hS, ne_eq, not_true_eq_false, if_false, Run.bind_apply, Run.call_apply,
    Run.pure_apply, htoken, hnew, List.getElem?_cons_succ, List.getElem?_cons_zero,
    List.getD_cons_succ, List.getD_cons_zero]
  cases a.world.AcceptInference (tr1 ++ [Main.Effect.NewClient a.config.EndpointBase
      (event.Source.UserID ++ "@line.me".toList) token])
      (Main.Client.mk a.config.EndpointBase (event.Source.UserID ++ "@line.me".toList) token)
      id1 with
  | error e => simp [Run.call_apply]
  | ok resultURL =>
    simp only [Run.bind_apply, Run.call_apply, Run.pure_apply]
    cases a.world.ReplyMessage ((tr1 ++ [Main.Effect.NewClient a.config.EndpointBase
      (event.Source.UserID ++ "@line.me".toList) token]) ++ [Main.Effect.AcceptInference
      (Main.Client.mk a.config.EndpointBase (event.Source.UserID ++ "@line.me".toList) token)
      id1]) event.ReplyToken (Main.confirmMessage id0 resultURL) with
    | error e => simp [Run.call_apply]
    | ok u => simp [Run.pure_apply]

/-- Instance of `handleEvent_postback_forwards_second_field` at a concrete input. -/
theorem handleEvent_postback_forwards_second_field_witness :
    2 ≤ (Split "a,b".toList).length ∧
      Main.handleEvent Main.exampleApp (userEvent .Postback "U1".toList "a,b".toList) [] =
        .ret () (Main.exampleTrace ++ [
          .AcceptInference Main.exampleClient "b".toList,
          .ReplyMessage "reply-token".toList (Main.confirmMessage "a".toList
            "https://recognizer.example/faces/1".toList)]) :=
  handleEvent_postback_forwards_second_field Main.exampleApp
    (userEvent .Postback "U1".toList "a,b".toList) [] _ Main.exampleTrace
    "user-token".toList Main.exampleClient rfl rfl rfl rfl rfl rfl (by decide)

/-- C3 (as stated, refuted). With collaborators that succeed, the data `a,b` (a
non-numeric field) and `1,2,3` (three fields) do not fail the event: `handler` calls
`AcceptInference` with the second field, `b` and `2`, and replies with the
confirmation. -/
theorem handler_accepts_malformed_postback :
    Main.handler Main.exampleApp
        (.ok [userEvent .Postback "U1".toList "a,b".toList]) [] =
      .ret () (Main.exampleTrace ++ [
        .AcceptInference Main.exampleClient "b".toList,
        .ReplyMessage "reply-token".toList (Main.confirmMessage "a".toList
          "https://recognizer.example/faces/1".toList)]) ∧
    Main.handler Main.exampleApp
        (.ok [userEvent .Postback "U1".toList "1,2,3".toList]) [] =
      .ret () (Main.exampleTrace ++ [
        .AcceptInference Main.exampleClient "2".toList,
        .ReplyMessage "reply-token".toList (Main.confirmMessage "1".toList
          "https://recognizer.example/faces/1".toList)]) :=
  ⟨rfl, rfl⟩

theorem getRecognizerToken_returns (a : Main.app) (userID : GoString) (tr : List Main.Effect) :
    ∃ r tr1, Main.getRecognizerToken a userID tr = .ret r tr1 := by
  simp only [Main.getRecognizerToken, Main.NewClient, Run.bind_apply, Run.call_apply,
    Run.pure_apply]
  cases a.world.GetProfile tr userID with
  | error e => exact ⟨_, _, rfl⟩
  | ok displayName =>
    simp only [Run.bind_apply, Run.call_apply, Run.pure_apply]
    cases a.world.NewClient (tr ++ [Main.Effect.GetProfile userID]) a.config.EndpointBase
      a.config.AdminEmail a.config.AdminToken with
    | error e => exact ⟨_, _, rfl⟩
    | ok u =>
      simp only [Run.bind_apply, Run.call_apply, Run.pure_apply]
      cases a.world.RegisterUser (tr ++ [Main.Effect.GetProfile userID] ++
        [Main.Effect.NewClient a.config.EndpointBase a.config.AdminEmail a.config.AdminToken])
        (Main.Client.mk a.config.EndpointBase a.config.AdminEmail a.config.AdminToken)
        userID displayName with
      | error e => exact ⟨_, _, rfl⟩
      | ok token => exact ⟨_, _, rfl⟩

/-- C8 (amended). For every batch whose first event comes from a user: when fetching the
profile, registering the user or building the admin client fails (`getRecognizerToken`
returns an error) while a Follow or a Postback event is handled, or when building the
user's client fails while a Postback event is handled, `handler` calls `log.Fatal`: the
process exits with status 1 and the remaining events of the batch are not handled. -/
theorem handleEvents_fatal_on_collaborator_failure (a : Main.app) (event : Event)
    (events : List Event) (tr : List Main.Effect)
    (hsrc : event.Source.Kind = EventSourceType.User) :
    (event.Kind = EventType.Follow → ∀ e tr1,
        Main.getRecognizerToken a event.Source.UserID tr = .ret (.error e) tr1 →
        Main.handleEvents a (event :: events) tr = .exit 1 (tr1 ++ [.Fatal])) ∧
      (event.Kind = EventType.Postback → ∀ e tr1,
        Main.getRecognizerToken a event.Source.UserID (tr ++ [.Printf "got postback: %s"]) =
          .ret (.error e) tr1 →
        Main.handleEvents a (event :: events) tr = .exit 1 (tr1 ++ [.Fatal])) ∧
      (event.Kind = EventType.Postback → ∀ e token tr1,
        Main.getRecognizerToken a event.Source.UserID (tr ++ [.Printf "got postback: %s"]) =
          .ret (.ok token) tr1 →
        a.world.NewClient tr1 a.config.EndpointBase
          (event.Source.UserID ++ "@line.me".toList) token = .error e →
        Main.handleEvents a (event :: events) tr =
          .exit 1 (tr1 ++ [.NewClient a.config.EndpointBase
            (event.Source.UserID ++ "@line.me".toList) token, .Fatal])) := by
  refine ⟨?_, ?_, ?_⟩
  · intro hkind e tr1 h
    simp [Main.handleEvents, Main.handleEvent, hsrc, hkind, Run.bind_apply, h, Main.Fatal,
      Run.andThen_apply, Run.call_apply, Run.exit_apply]
  · intro hkind e tr1 h
    simp [Main.handleEvents, Main.handleEvent, hsrc, hkind, Run.bind_apply, h, Main.Fatal,
      Main.Printf, Run.andThen_apply, Run.call_apply, Run.exit_apply]
  · intro hkind e token tr1 h hnew
    simp only [Main.handleEvents, Main.handleEvent, hsrc, hkind, ne_eq, not_true_eq_false,
      if_false, Run.bind_apply, Main.Printf, Run.call_apply, h, Main.NewClient, hnew,
      Run.pure_apply, Main.Fatal, Run.andThen_apply, Run.exit_apply, List.append_assoc,
      List.singleton_append]

/-- Instance of `handleEvents_fatal_on_collaborator_failure` at a concrete input. -/
theorem handleEvents_fatal_on_collaborator_failure_witness :
    Main.handleEvents Main.failingProfileApp
        [userEvent .Follow "U1".toList [], userEvent .Follow "U2".toList []] [] =
      .exit 1 ([.GetProfile "U1".toList] ++ [.Fatal]) :=
  (handleEvents_fatal_on_collaborator_failure Main.failingProfileApp
    (userEvent .Follow "U1".toList []) [userEvent .Follow "U2".toList []] []
    rfl).1 rfl "profile unavailable" [.GetProfile "U1".toList] rfl

/-- C8 (as stated, refuted). A batch of two Follow events whose profile fetch fails: the
first failure is passed to `log.Fatal`, the process exits with status 1, and the second
event is never handled. -/
theorem handler_exits_on_profile_failure :
    Main.handler Main.failingProfileApp
        (.ok [userEvent .Follow "U1".toList [], userEvent .Follow "U2".toList []])
        [] =
      .exit 1 [.GetProfile "U1".toList, .Fatal] :=
  rfl

/-! ### `handlePostback` -/

/-- C9. A postback event whose source is not an individual user is rejected before any
side effect: `handlePostback` returns the error with the trace unchanged, so no token is
retrieved, no client is built, no accept or reject call is made and no reply is sent;
`handler` of `main.go` skips such an event with one log line and no other call. -/
theorem handlePostback_rejects_non_user (app : App.BotApp) (a : Main.app) (event : Event)
    (tr : List App.Effect) (tr0 : List Main.Effect)
    (hsrc : event.Source.Kind ≠ EventSourceType.User) :
    App.handlePostback app event tr = .ret (.error "not from user: %v") tr ∧
      Main.handleEvent a event tr0 = .ret () (tr0 ++ [.Printf "not from user: %v"]) := by
  constructor
  · simp only [App.handlePostback, hsrc, ne_eq, not_false_eq_true, if_true, Run.pure_apply]
  · simp only [Main.handleEvent, hsrc, ne_eq, not_false_eq_true, if_true, Main.Printf,
      Run.call_apply]

/-- Instance of `handlePostback_rejects_non_user` at a concrete input. -/
theorem handlePostback_rejects_non_user_witness :
    App.handlePostback App.refusingApp App.groupPostback [] =
        .ret (.error "not from user: %v") [] ∧
      Main.handleEvent Main.exampleApp App.groupPostback [] =
        .ret () ([] ++ [.Printf "not from user: %v"]) :=
  handlePostback_rejects_non_user App.refusingApp Main.exampleApp App.groupPostback [] []
    (by decide)

/-- C5 (amended). For a postback event from a user whose token is retrieved and whose client
is built: when the payload decodes to an accept (or reject) action and the
`AcceptInference` (or `RejectInference`) call fails, `handlePostback` logs the failure
and sends exactly one reply, on the event's reply token, with the generic failure text;
when the payload does not decode, `handlePostback` returns the decoding error and sends
no reply. -/
theorem handlePostback_failure_reply (app : App.BotApp) (event : Event)
    (tr tr1 : List App.Effect) (token : GoString) (client : App.Client)
    (hsrc : event.Source.Kind = EventSourceType.User)
    (htoken : app.RetrieveUserToken (tr ++ [.Printf "got postback: %s"])
      event.Source.UserID = .ok token)
    (hnew : app.NewClient
      (tr ++ [.Printf "got postback: %s"] ++ [.RetrieveUserToken event.Source.UserID])
      (event.Source.UserID ++ "@line.me".toList) token = .ok ())
    (hclient : client = App.Client.mk (event.Source.UserID ++ "@line.me".toList) token)
    (htr1 : tr1 = tr ++ [.Printf "got postback: %s"] ++
      [.RetrieveUserToken event.Source.UserID] ++
      [.NewClient (event.Source.UserID ++ "@line.me".toList) token]) :
    (∀ data e, app.Unmarshal event.PostbackData = .ok data → data.Action = .Accept →
        app.AcceptInference tr1 client data.InferenceID = .error e →
        ∃ r, App.handlePostback app event tr = .ret r (tr1 ++ [
          .AcceptInference client data.InferenceID, .Printf "accept error: %v",
          .ReplyMessage event.ReplyToken (.Text App.failureText)])) ∧
      (∀ data e, app.Unmarshal event.PostbackData = .ok data → data.Action = .Reject →
        app.RejectInference tr1 client data.InferenceID = .error e →
        ∃ r, App.handlePostback app event tr = .ret r (tr1 ++ [
          .RejectInference client data.InferenceID, .Printf "reject error: %v",
          .ReplyMessage event.ReplyToken (.Text App.failureText)])) ∧
      (∀ e, app.Unmarshal event.PostbackData = .error e →
        App.handlePostback app event tr = .ret (.error e) tr1) := by
  subst hclient htr1
  simp only [List.append_assoc, List.singleton_append, List.cons_append, List.nil_append]
    at hnew ⊢
  refine ⟨?_, ?_, ?_⟩
  · intro data e hdata hact hfail
    simp only [App.handlePostback, hsrc, ne_eq, not_true_eq_false, if_false, Run.bind_apply,
      Run.call_apply, htoken, hnew, hdata, App.acceptOrReject, hact, hfail, Run.pure_apply,
      List.append_assoc, List.singleton_append, List.cons_append, List.nil_append]
    cases app.ReplyMessage _ event.ReplyToken (SendingMessage.Text App.failureText) with
    | error e1 => exact ⟨_, rfl⟩
    | ok u => exact ⟨_, rfl⟩
  · intro data e hdata hact hfail
    simp only [App.handlePostback, hsrc, ne_eq, not_true_eq_false, if_false, Run.bind_apply,
      Run.call_apply, htoken, hnew, hdata, App.acceptOrReject, hact, hfail, Run.pure_apply,
      List.append_assoc, List.singleton_append, List.cons_append, List.nil_append]
    cases app.ReplyMessage _ event.ReplyToken (SendingMessage.Text App.failureText) with
    | error e1 => exact ⟨_, rfl⟩
    | ok u => exact ⟨_, rfl⟩
  · intro e hdata
    simp only [App.handlePostback, hsrc, ne_eq, not_true_eq_false, if_false, Run.bind_apply,
      Run.call_apply, htoken, hnew, hdata, Run.pure_apply,
      List.append_assoc, List.singleton_append, List.cons_append, List.nil_append]

/-- Instance of `handlePostback_failure_reply` at a concrete input. -/
theorem handlePostback_failure_reply_witness :
    ∃ r, App.handlePostback App.refusingApp (userEvent .Postback "U1".toList "accept 17".toList) [] =
      .ret r ([.Printf "got postback: %s", .RetrieveUserToken "U1".toList,
          .NewClient "U1@line.me".toList "user-token".toList] ++ [
        .AcceptInference (App.Client.mk "U1@line.me".toList "user-token".toList) 17,
        .Printf "accept error: %v",
        .ReplyMessage "reply-token".toList (.Text App.failureText)]) :=
  (handlePostback_failure_reply App.refusingApp (userEvent .Postback "U1".toList "accept 17".toList)
    [] _ "user-token".toList _ rfl rfl rfl rfl rfl).1
    { Action := .Accept, FaceID := 42, InferenceID := 17 } "already resolved" rfl rfl rfl

/-- C5 (as stated, refuted). A postback from a user whose token is retrieved and whose
payload does not decode: `handlePostback` returns the decoding error after the log line,
the token retrieval and the client construction, and sends no reply at all. -/
theorem handlePostback_silent_on_decode_failure :
    App.handlePostback App.undecodableApp (userEvent .Postback "U1".toList "not json".toList) [] =
      .ret (.error "unexpected end of JSON input")
        [.Printf "got postback: %s", .RetrieveUserToken "U1".toList,
          .NewClient "U1@line.me".toList "user-token".toList] :=
  rfl

/-! ### Examples for the carousel -/

/-- Instance of `column_truncation` at a concrete input. -/
theorem column_truncation_witness :
    (Main.exampleColumn.Title =
        (Main.composedTitle Main.exampleApp Main.exampleInference).take 39 ++ ['…'] ∧
      Main.exampleColumn.Title.length = 40) ∧
      Main.exampleColumn.Text = Main.composedText Main.exampleInference :=
  ⟨(column_truncation Main.exampleApp Main.exampleInference Main.exampleColumn rfl).1
      (by decide),
    (column_truncation Main.exampleApp Main.exampleInference Main.exampleColumn rfl).2.2.2
      (by decide)⟩

/-! ### The payload built by `sendCarousel` and read back by `handler` -/

theorem newColumn_actions (a : Main.app) (inference : Main.Inference) (column : CarouselColumn)
    (hcol : Main.newColumn a inference = .ok column) :
    column.Actions = [
      .URI "🔍 くわしく".toList inference.Face.Photo.SourceURL,
      .Postback "🙆 あってる".toList
        (Main.postbackData inference.Face.ID inference.ID) [],
      .Message "🙅 ちがうよ".toList "ちがうよ".toList] := by
  unfold Main.newColumn at hcol
  split at hcol
  · cases hcol
  · cases hcol; rfl

theorem handleEvent_postback_branch (a : Main.app) (event : Event)
    (tr tr1 : List Main.Effect) (token : GoString)
    (hsrc : event.Source.Kind = EventSourceType.User) (hkind : event.Kind = EventType.Postback)
    (htoken : Main.getRecognizerToken a event.Source.UserID
      (tr ++ [.Printf "got postback: %s"]) = .ret (.ok token) tr1)
    (hnew : a.world.NewClient tr1 a.config.EndpointBase
      (event.Source.UserID ++ "@line.me".toList) token = .ok ()) :
    Main.handleEvent a event tr =
      Main.acceptPostback a event
        (Main.Client.mk a.config.EndpointBase (event.Source.UserID ++ "@line.me".toList) token)
        (tr1 ++ [.NewClient a.config.EndpointBase
          (event.Source.UserID ++ "@line.me".toList) token]) := by
  simp only [Main.handleEvent, hsrc, hkind, Main.Printf, Main.NewClient, ne_eq,
    not_true_eq_false, if_false, Run.bind_apply, Run.call_apply, Run.pure_apply, htoken, hnew]

theorem acceptPostback_of_fields (a : Main.app) (event : Event) (client : Main.Client)
    (tr : List Main.Effect) (id0 id1 : GoString) (rest : List GoString)
    (hsplit : Split event.PostbackData = id0 :: id1 :: rest) :
    Main.acceptPostback a event client tr =
      match a.world.AcceptInference tr client id1 with
      | .error _ => .ret () (tr ++ [.AcceptInference client id1, .Printf "accept error: %v"])
      | .ok resultURL =>
        match a.world.ReplyMessage (tr ++ [.AcceptInference client id1]) event.ReplyToken
            (Main.confirmMessage id0 resultURL) with
        | .error _ => .ret () (tr ++ [.AcceptInference client id1,
            .ReplyMessage event.ReplyToken (Main.confirmMessage id0 resultURL),
            .Printf "send message error: %v"])
        | .ok () => .ret () (tr ++ [.AcceptInference client id1,
            .ReplyMessage event.ReplyToken (Main.confirmMessage id0 resultURL)]) := by
  simp only [Main.acceptPostback, hsplit, Main.Printf, Run.bind_apply, Run.call_apply,
    Run.pure_apply, List.getElem?_cons_succ, List.getElem?_cons_zero]
  cases a.world.AcceptInference tr client id1 with
  | error e => simp [Run.call_apply]
  | ok resultURL =>
    simp only [Run.bind_apply, Run.call_apply, Run.pure_apply]
    cases a.world.ReplyMessage (tr ++ [Main.Effect.AcceptInference client id1])
      event.ReplyToken (Main.confirmMessage id0 resultURL) with
    | error e => simp [Run.call_apply]
    | ok u => simp [Run.pure_apply]

/-- C2. Postback payload round trip: for every inference whose face id and inference id
are unsigned 64-bit integers, the data string that `sendCarousel` puts in the postback
action of the column is split by the postback branch of `handler` into exactly the two
fields decimal face id and decimal inference id, neither of which contains the delimiter;
so when a user's postback event echoes that data, `handler` calls `AcceptInference` with
`ids[1]`, the decimal inference id, and confirms with `ids[0]`, the decimal face id. -/
theorem postbackData_roundtrip (a : Main.app) (inference : Main.Inference)
    (column : CarouselColumn) (label text : GoString) (event : Event)
    (tr tr1 tr2 : List Main.Effect) (token : GoString) (client : Main.Client)
    (hf : inference.Face.ID < 2 ^ 64) (hi : inference.ID < 2 ^ 64)
    (hcol : Main.newColumn a inference = .ok column)
    (hact : TemplateAction.Postback label event.PostbackData text ∈ column.Actions)
    (hsrc : event.Source.Kind = EventSourceType.User) (hkind : event.Kind = EventType.Postback)
    (htoken : Main.getRecognizerToken a event.Source.UserID
      (tr ++ [.Printf "got postback: %s"]) = .ret (.ok token) tr1)
    (hnew : a.world.NewClient tr1 a.config.EndpointBase
      (event.Source.UserID ++ "@line.me".toList) token = .ok ())
    (hclient : client = Main.Client.mk a.config.EndpointBase
      (event.Source.UserID ++ "@line.me".toList) token)
    (htr2 : tr2 = tr1 ++ [.NewClient a.config.EndpointBase
      (event.Source.UserID ++ "@line.me".toList) token]) :
    event.PostbackData = Main.postbackData inference.Face.ID inference.ID ∧
      Split event.PostbackData =
        [(Nat.repr inference.Face.ID).toList, (Nat.repr inference.ID).toList] ∧
      ',' ∉ (Nat.repr inference.Face.ID).toList ∧ ',' ∉ (Nat.repr inference.ID).toList ∧
      Main.handleEvent a event tr =
        match a.world.AcceptInference tr2 client (Nat.repr inference.ID).toList with
        | .error _ => .ret () (tr2 ++ [
            .AcceptInference client (Nat.repr inference.ID).toList,
            .Printf "accept error: %v"])
        | .ok resultURL =>
          match a.world.ReplyMessage
              (tr2 ++ [.AcceptInference client (Nat.repr inference.ID).toList])
              event.ReplyToken
              (Main.confirmMessage (Nat.repr inference.Face.ID).toList resultURL) with
          | .error _ => .ret () (tr2 ++ [
              .AcceptInference client (Nat.repr inference.ID).toList,
              .ReplyMessage event.ReplyToken
                (Main.confirmMessage (Nat.repr inference.Face.ID).toList resultURL),
              .Printf "send message error: %v"])
          | .ok () => .ret () (tr2 ++ [
              .AcceptInference client (Nat.repr inference.ID).toList,
              .ReplyMessage event.ReplyToken
                (Main.confirmMessage (Nat.repr inference.Face.ID).toList resultURL)]) := by
  have hdata : event.PostbackData = Main.postbackData inference.Face.ID inference.ID := by
    rw [newColumn_actions a inference column hcol] at hact
    simp only [List.mem_cons, TemplateAction.Postback.injEq, List.mem_singleton,
      reduceCtorEq, false_or, or_false, List.not_mem_nil] at hact
    exact hact.2.1
  have hsplit : Split event.PostbackData =
      [(Nat.repr inference.Face.ID).toList, (Nat.repr inference.ID).toList] := by
    rw [hdata]
    simp only [Main.postbackData, FormatUint, uint64, Nat.mod_eq_of_lt hf, Nat.mod_eq_of_lt hi]
    exact Split_Join_pair _ _ (toDigits_no_comma _) (toDigits_no_comma _)
  refine ⟨hdata, hsplit, toDigits_no_comma _, toDigits_no_comma _, ?_⟩
  subst hclient htr2
  rw [handleEvent_postback_branch a event tr tr1 token hsrc hkind htoken hnew]
  exact acceptPostback_of_fields a event _ _ _ _ [] hsplit

/-- Instance of `postbackData_roundtrip` at a concrete input. -/
theorem postbackData_roundtrip_witness :
    "42,17".toList = Main.postbackData 42 17 ∧
      Split "42,17".toList = ["42".toList, "17".toList] ∧
      Main.handleEvent Main.exampleApp (userEvent .Postback "U1".toList "42,17".toList) [] =
        .ret () (Main.exampleTrace ++ [
          .AcceptInference Main.exampleClient "17".toList,
          .ReplyMessage "reply-token".toList (Main.confirmMessage "42".toList
            "https://recognizer.example/faces/1".toList)]) :=
  have h := postbackData_roundtrip Main.exampleApp Main.exampleInference Main.exampleColumn
    "🙆 あってる".toList [] (userEvent .Postback "U1".toList "42,17".toList) []
    _ Main.exampleTrace "user-token".toList Main.exampleClient (by decide) (by decide) rfl
    (by decide) rfl rfl rfl rfl rfl rfl
  ⟨h.1, h.2.1, h.2.2.2.2⟩

/-! ### The carousel of `sendCarousel` -/

theorem columnsLoop_error (a : Main.app) (inferences : List Main.Inference) (ids : List Nat)
    (hids : ∀ j ∈ ids, j < inferences.length) (e : String)
    (hu : a.world.urlParse (a.world.Getenv "APP_URL" ++ "/thumbnail".toList) = .error e)
    (remaining i : Nat) (columns : List CarouselColumn) (hlen : i + (remaining + 1) ≤ ids.length) :
    Main.columnsLoop a inferences ids (remaining + 1) i columns = .error e := by
  have hi : i < ids.length := by omega
  have hj : ids[i] < inferences.length := hids _ (List.getElem_mem hi)
  simp only [Main.columnsLoop, List.getElem?_eq_getElem hi, List.getElem?_eq_getElem hj,
    Main.newColumn, hu]

theorem sendCarousel_eq (a : Main.app) (userID replyToken query token : GoString)
    (labels : List Main.Label) (inferences : List Main.Inference)
    (tr tr1 : List Main.Effect)
    (htoken : Main.getRecognizerToken a userID tr = .ret (.ok token) tr1)
    (hnew : a.world.NewClient tr1 a.config.EndpointBase (userID ++ "@line.me".toList) token =
      .ok ())
    (hlabels : a.world.Labels
      (tr1 ++ [.NewClient a.config.EndpointBase (userID ++ "@line.me".toList) token])
      (Main.Client.mk a.config.EndpointBase (userID ++ "@line.me".toList) token) query =
      .ok labels)
    (hinfs : a.world.Inferences
      (tr1 ++ [.NewClient a.config.EndpointBase (userID ++ "@line.me".toList) token,
        .Labels (Main.Client.mk a.config.EndpointBase (userID ++ "@line.me".toList) token)
          query])
      (Main.Client.mk a.config.EndpointBase (userID ++ "@line.me".toList) token)
      (labels.map fun label => label.ID) = .ok inferences)
    (hne : inferences ≠ []) :
    Main.sendCarousel a userID replyToken query tr =
      match Main.carouselColumns a inferences (a.world.Perm
        (tr1 ++ [.NewClient a.config.EndpointBase (userID ++ "@line.me".toList) token,
          .Labels (Main.Client.mk a.config.EndpointBase (userID ++ "@line.me".toList) token)
            query,
          .Inferences (Main.Client.mk a.config.EndpointBase (userID ++ "@line.me".toList)
            token) (labels.map fun label => label.ID)]) inferences.length) with
      | .panic msg => .panic msg
          (tr1 ++ [.NewClient a.config.EndpointBase (userID ++ "@line.me".toList) token,
            .Labels (Main.Client.mk a.config.EndpointBase (userID ++ "@line.me".toList) token)
              query,
            .Inferences (Main.Client.mk a.config.EndpointBase (userID ++ "@line.me".toList)
              token) (labels.map fun label => label.ID),
            .Perm inferences.length])
      | .error e => .ret (.error e)
          (tr1 ++ [.NewClient a.config.EndpointBase (userID ++ "@line.me".toList) token,
            .Labels (Main.Client.mk a.config.EndpointBase (userID ++ "@line.me".toList) token)
              query,
            .Inferences (Main.Client.mk a.config.EndpointBase (userID ++ "@line.me".toList)
              token) (labels.map fun label => label.ID),
            .Perm inferences.length])
      | .ok columns =>
        match a.world.ReplyMessage
          (tr1 ++ [.NewClient a.config.EndpointBase (userID ++ "@line.me".toList) token,
            .Labels (Main.Client.mk a.config.EndpointBase (userID ++ "@line.me".toList) token)
              query,
            .Inferences (Main.Client.mk a.config.EndpointBase (userID ++ "@line.me".toList)
              token) (labels.map fun label => label.ID),
            .Perm inferences.length])
          replyToken (.Carousel "template message".toList columns) with
        | .error e => .ret (.error e)
          (tr1 ++ [.NewClient a.config.EndpointBase (userID ++ "@line.me".toList) token,
            .Labels (Main.Client.mk a.config.EndpointBase (userID ++ "@line.me".toList) token)
              query,
            .Inferences (Main.Client.mk a.config.EndpointBase (userID ++ "@line.me".toList)
              token) (labels.map fun label => label.ID),
            .Perm inferences.length,
            .ReplyMessage replyToken (.Carousel "template message".toList columns)])
        | .ok () => .ret (.ok ())
          (tr1 ++ [.NewClient a.config.EndpointBase (userID ++ "@line.me".toList) token,
            .Labels (Main.Client.mk a.config.EndpointBase (userID ++ "@line.me".toList) token)
              query,
            .Inferences (Main.Client.mk a.config.EndpointBase (userID ++ "@line.me".toList)
              token) (labels.map fun label => label.ID),
            .Perm inferences.length,
            .ReplyMessage replyToken (.Carousel "template message".toList columns)]) := by
  have hlen : ¬ inferences.length < 1 := by
    cases inferences with
    | nil => exact absurd rfl hne
    | cons x xs => simp
  simp only [Main.sendCarousel, Main.NewClient, Run.bind_apply, Run.call_apply, Run.pure_apply,
    htoken, hnew, hlabels, hinfs, hlen, if_false, List.append_assoc, List.singleton_append,
    List.cons_append, List.nil_append]
  split
  · simp only [Run.panic_apply, *]
  · simp only [Run.pure_apply, *]
  · rename_i columns hc
    simp only [hc, Run.bind_apply, Run.call_apply, Run.pure_apply, List.append_assoc,
      List.singleton_append, List.cons_append, List.nil_append]
    split <;> simp_all [Run.pure_apply]

/-- C6 (amended). For a call of `sendCarousel` whose token, client, labels and inferences are
obtained, with a non-empty inference list of length `n` and the permutation `ids` of
`0..n-1` drawn by `rand.Perm`: the loop runs `min 5 n` times; the indices it reads,
`ids[0..min 5 n)`, are pairwise distinct and below `n`, so `sendCarousel` never panics on
an index; when the thumbnail URL parses, `sendCarousel` builds exactly `min 5 n` columns,
the `k`-th from `inferences[ids[k]]`, and sends them in one carousel reply; when it does
not parse, `sendCarousel` returns the parse error and sends no column. -/
theorem carousel_selection (a : Main.app) (userID replyToken query token : GoString)
    (labels : List Main.Label) (inferences : List Main.Inference) (ids : List Nat)
    (tr tr1 tr2 tr3 : List Main.Effect) (client : Main.Client)
    (htoken : Main.getRecognizerToken a userID tr = .ret (.ok token) tr1)
    (hnew : a.world.NewClient tr1 a.config.EndpointBase (userID ++ "@line.me".toList) token =
      .ok ())
    (hclient : client = Main.Client.mk a.config.EndpointBase (userID ++ "@line.me".toList)
      token)
    (hlabels : a.world.Labels
      (tr1 ++ [.NewClient a.config.EndpointBase (userID ++ "@line.me".toList) token])
      client query = .ok labels)
    (hinfs : a.world.Inferences
      (tr1 ++ [.NewClient a.config.EndpointBase (userID ++ "@line.me".toList) token,
        .Labels client query])
      client (labels.map fun label => label.ID) = .ok inferences)
    (hne : inferences ≠ [])
    (htr2 : tr2 = tr1 ++ [.NewClient a.config.EndpointBase (userID ++ "@line.me".toList) token,
      .Labels client query, .Inferences client (labels.map fun label => label.ID)])
    (hids : ids = a.world.Perm tr2 inferences.length)
    (hperm : ids.Perm (List.range inferences.length))
    (htr3 : tr3 = tr1 ++ [.NewClient a.config.EndpointBase (userID ++ "@line.me".toList) token,
      .Labels client query, .Inferences client (labels.map fun label => label.ID),
      .Perm inferences.length]) :
    Main.numColumns ids = min 5 inferences.length ∧
      (ids.take (min 5 inferences.length)).Nodup ∧
      (∀ j ∈ ids.take (min 5 inferences.length), j < inferences.length) ∧
      (∀ msg t, Main.sendCarousel a userID replyToken query tr ≠ .panic msg t) ∧
      (∀ u, a.world.urlParse (a.world.Getenv "APP_URL" ++ "/thumbnail".toList) = .ok u →
        ∃ columns, columns.length = min 5 inferences.length ∧
          List.Forall₂ (fun j column => ∃ inference, inferences[j]? = some inference ∧
            Main.newColumn a inference = .ok column)
            (ids.take (min 5 inferences.length)) columns ∧
          Main.sendCarousel a userID replyToken query tr =
            match a.world.ReplyMessage tr3 replyToken
                (.Carousel "template message".toList columns) with
            | .error e => .ret (.error e) (tr3 ++ [
                .ReplyMessage replyToken (.Carousel "template message".toList columns)])
            | .ok () => .ret (.ok ()) (tr3 ++ [
                .ReplyMessage replyToken (.Carousel "template message".toList columns)])) ∧
      (∀ e, a.world.urlParse (a.world.Getenv "APP_URL" ++ "/thumbnail".toList) = .error e →
        Main.sendCarousel a userID replyToken query tr = .ret (.error e) tr3) := by
  subst hclient htr2 htr3
  have heq := sendCarousel_eq a userID replyToken query token labels inferences tr tr1
    htoken hnew hlabels hinfs hne
  rw [← hids] at heq
  have hlen : ids.length = inferences.length := by
    rw [hperm.length_eq, List.length_range]
  have hnodup : ids.Nodup := hperm.nodup_iff.2 (List.nodup_range _)
  have hin : ∀ j ∈ ids, j < inferences.length := fun j hj =>
    List.mem_range.1 (hperm.mem_iff.1 hj)
  have hnum : Main.numColumns ids = min 5 inferences.length := by
    unfold Main.numColumns
    split_ifs <;> omega
  have hpos : 0 < inferences.length := List.length_pos.2 hne
  have hnp : ∀ msg, Main.carouselColumns a inferences ids ≠ .panic msg := fun msg =>
    columnsLoop_no_panic a inferences ids hin _ 0 [] (by rw [hnum]; omega) msg
  refine ⟨hnum, hnodup.sublist (List.take_sublist _ _),
    fun j hj => hin j (List.mem_of_mem_take hj), ?_, ?_, ?_⟩
  · intro msg t h
    rw [heq] at h
    cases hc : Main.carouselColumns a inferences ids with
    | panic m => exact hnp m hc
    | error e => rw [hc] at h; cases h
    | ok columns =>
      rw [hc] at h
      simp only at h
      split at h <;> cases h
  · intro u hu
    obtain ⟨cols, hloop, hall⟩ :=
      columnsLoop_ok a inferences ids hin u hu (Main.numColumns ids) 0 [] (by rw [hnum]; omega)
    rw [hnum] at hall
    have hc : Main.carouselColumns a inferences ids = .ok cols := by
      simpa [Main.carouselColumns] using hloop
    have hall2 : List.Forall₂ (fun j column => ∃ inference, inferences[j]? = some inference ∧
        Main.newColumn a inference = .ok column) (ids.take (min 5 inferences.length)) cols := by
      simpa using hall
    refine ⟨cols, ?_, hall2, ?_⟩
    · have := hall2.length_eq
      rw [← this, List.length_take]
      omega
    · rw [heq, hc]
      simp only [List.append_assoc, List.cons_append, List.nil_append]
  · intro e hu
    have hc : Main.carouselColumns a inferences ids = .error e := by
      have h1 : Main.numColumns ids = (Main.numColumns ids - 1) + 1 := by rw [hnum]; omega
      unfold Main.carouselColumns
      rw [h1]
      exact columnsLoop_error a inferences ids hin e hu _ 0 [] (by rw [← h1, hnum]; omega)
    rw [heq, hc]

/-- Instance of `carousel_selection` at a concrete input. -/
theorem carousel_selection_witness :
    ∃ columns, columns.length = min 5 Main.exampleInferences.length ∧
      List.Forall₂ (fun j column => ∃ inference, Main.exampleInferences[j]? = some inference ∧
        Main.newColumn Main.carouselApp inference = .ok column)
        (Main.examplePerm.take (min 5 Main.exampleInferences.length)) columns ∧
      Main.sendCarousel Main.carouselApp "U1".toList "reply-token".toList [] [] =
        .ret (.ok ()) (Main.carouselTrace ++ [
          .ReplyMessage "reply-token".toList (.Carousel "template message".toList columns)]) :=
  (carousel_selection Main.carouselApp "U1".toList "reply-token".toList [] "user-token".toList
    [] Main.exampleInferences Main.examplePerm [] _ _ Main.carouselTrace Main.exampleClient
    rfl rfl rfl rfl rfl (by decide) rfl rfl (List.reverse_perm _) rfl).2.2.2.2.1 _ rfl

/-- C6 (as stated, refuted). Eight inferences and the permutation `7, 6, ..., 0`, with an
`APP_URL` that does not parse: the loop of `sendCarousel` returns the parse error in its
first pass, so no column is built and no reply is sent. -/
theorem sendCarousel_no_columns_on_url_error :
    Main.exampleInferences.length = 8 ∧
      Main.examplePerm.Perm (List.range 8) ∧
      Main.carouselColumns Main.unparsableApp Main.exampleInferences Main.examplePerm =
        .error "missing protocol scheme" ∧
      Main.sendCarousel Main.unparsableApp "U1".toList "reply-token".toList [] [] =
        .ret (.error "missing protocol scheme") Main.carouselTrace :=
  ⟨rfl, List.reverse_perm _, rfl, rfl⟩
